import Mathlib

/-!
Verification development for the GenAI education-platform backend.

The Python sources under `backend/` are shallowly embedded here:
text is represented as `List Char`, dictionaries with `.get` defaults as
structures of `Option` fields, fallible external collaborators (LLM calls,
retrievers, TTS) as `Option`-valued parameters (`none` models a raised
exception), and every orchestrator stage as an explicit state-passing
function.  Theorems at the end settle the specification claims.
-/

namespace GenAI

/-- Text is modelled as a list of characters (Python `str`). -/
abbrev Str := List Char

/-- Coerce a Lean string literal to the text model. -/
def str (s : String) : Str := s.data

/-- Python `str.lower()` (ASCII range, which covers all embedded text). -/
def lowerStr (s : Str) : Str := s.map Char.toLower

/-- Python `pat in s` substring test. -/
def isSubstr (pat : Str) : Str → Bool
  | [] => pat.isPrefixOf []
  | s@(_ :: rest) => pat.isPrefixOf s || isSubstr pat rest

/-- The whitespace characters stripped by Python `str.strip()`. -/
def pyIsSpace (c : Char) : Bool :=
  c = ' ' || c = '\t' || c = '\n' || c = '\r' || c = '\x0b' || c = '\x0c'

/-- Python `str.strip()`. -/
def pyStrip (s : Str) : Str :=
  ((s.dropWhile pyIsSpace).reverse.dropWhile pyIsSpace).reverse

/-- Python `str.split(sep)` for a single-character separator. -/
def splitOnChar (sep : Char) (s : Str) : List Str :=
  s.splitOn sep

/-- Decimal rendering, fuel-indexed so that it reduces definitionally
(`fuel` bounds the number of digits; `natToChars` supplies enough). -/
def natToCharsAux : Nat → Nat → Str
  | 0, _ => []
  | fuel + 1, n =>
    if n < 10 then [Char.ofNat (48 + n)]
    else natToCharsAux fuel (n / 10) ++ [Char.ofNat (48 + n % 10)]

/-- Decimal rendering of a natural number (for f-string interpolation). -/
def natToChars (n : Nat) : Str := natToCharsAux (n + 1) n

/-- Python `sep.join(xs)`. -/
def joinSep (sep : Str) : List Str → Str
  | [] => []
  | [x] => x
  | x :: xs => x ++ sep ++ joinSep sep xs

/-- Python `list(dict.fromkeys(xs))`: deduplicate keeping first
occurrences (`seen` accumulates the keys already emitted). -/
def dedupFirstAux (seen : List Str) : List Str → List Str
  | [] => []
  | x :: xs =>
    if seen.contains x then dedupFirstAux seen xs
    else x :: dedupFirstAux (seen ++ [x]) xs

/-- Python `list(dict.fromkeys(xs))`. -/
def dedupFirst (xs : List Str) : List Str := dedupFirstAux [] xs

/-- Fuel-indexed worker for `replaceAllSub` (fuel bounds the scan length;
one character is consumed per step, or `pat.length ≥ 1` on a match). -/
def replaceAllSubAux (pat rep : Str) : Nat → Str → Str
  | 0, s => s
  | fuel + 1, s =>
    if pat ≠ [] ∧ pat.isPrefixOf s then
      rep ++ replaceAllSubAux pat rep fuel (s.drop pat.length)
    else match s with
      | [] => []
      | c :: rest => c :: replaceAllSubAux pat rep fuel rest

/-- Python `s.replace(pat, rep)`: replace all non-overlapping occurrences,
left to right.  An empty pattern is returned unchanged (never used with
one by the embedded code). -/
def replaceAllSub (pat rep : Str) (s : Str) : Str :=
  if pat = [] then s else replaceAllSubAux pat rep (s.length + 1) s

-- =========================================================================
-- backend/agents/tutor_graph.py : LANGUAGE & INTENT DETECTION
-- =========================================================================

/-- `LANGUAGE_MAP` (insertion order preserved, as in a Python dict). -/
def LANGUAGE_MAP : List (Str × Str) :=
  [ (str "hindi", str "hi-IN"), (str "bengali", str "bn-IN"),
    (str "bangla", str "bn-IN"), (str "tamil", str "ta-IN"),
    (str "telugu", str "te-IN"), (str "kannada", str "kn-IN"),
    (str "malayalam", str "ml-IN"), (str "marathi", str "mr-IN"),
    (str "gujarati", str "gu-IN"), (str "punjabi", str "pa-IN"),
    (str "english", str "en-IN") ]

/-- `INTENT_KEYWORDS["audio"]`. -/
def AUDIO_KEYWORDS : List Str :=
  [ str "audio", str "speak", str "voice", str "podcast", str "listen",
    str "read aloud", str "tell me", str "batao", str "samjhao", str "sunao" ]

/-- `INTENT_KEYWORDS` (dict insertion order is the priority order). -/
def INTENT_KEYWORDS : List (Str × List Str) :=
  [ (str "mindmap",
      [str "mindmap", str "mind map", str "concept map", str "diagram",
       str "visual map"]),
    (str "flashcard",
      [str "flashcard", str "flash card", str "flash cards",
       str "study cards", str "revision cards"]),
    (str "quiz",
      [str "quiz", str "test me", str "test my knowledge", str "mcq",
       str "multiple choice"]),
    (str "audio", AUDIO_KEYWORDS) ]

/-- `detect_intent`: first keyword set with a hit wins, default "explain". -/
def detect_intent (query : Str) : Str :=
  let q := lowerStr query
  match INTENT_KEYWORDS.find? (fun p => p.2.any (fun kw => isSubstr kw q)) with
  | some p => p.1
  | none => str "explain"

/-- The five templated patterns tried for each language name. -/
def langPatterns (name : Str) : List Str :=
  [ str "in " ++ name, name ++ str " mein", name ++ str " me",
    name ++ str " audio", str "explain in " ++ name ]

/-- `detect_language`: first language whose pattern matches, default en-IN. -/
def detect_language (query : Str) : Str :=
  let q := lowerStr query
  match LANGUAGE_MAP.find?
      (fun p => (langPatterns p.1).any (fun pt => isSubstr pt q)) with
  | some p => p.2
  | none => str "en-IN"

/-- `should_generate_audio`: explicit flag, audio keyword, or an
"in {language}" mention. -/
def should_generate_audio (query : Str) (explicit_flag : Bool) : Bool :=
  if explicit_flag then true
  else
    let q := lowerStr query
    if AUDIO_KEYWORDS.any (fun kw => isSubstr kw q) then true
    else LANGUAGE_MAP.any (fun p => isSubstr (str "in " ++ p.1) q)

-- =========================================================================
-- backend/models/journey.py : data model
-- =========================================================================

/-- One quiz question dict as stored on a node
(`{"question", "options", "correct_answer"}`).  `correct_answer` is read in
the routes with `q.get("correct_answer")`, hence the `Option`. -/
structure QuizQuestion where
  question : Str := []
  options : List Str := []
  correct_answer : Option Int := none
  deriving Repr, DecidableEq

/-- `JourneyNode` (pydantic model).  `status` is one of the literal strings
"locked" / "unlocked" / "completed", kept as text as in the source. -/
structure JourneyNode where
  id : Str
  title : Str
  description : Str
  status : Str
  content_summary : Str := []
  quiz_questions : List QuizQuestion := []
  deriving Repr, DecidableEq

/-- `JourneyState` (pydantic model).  `current_node_index` starts at 0 and is
only ever advanced by one, so `Nat` is faithful. -/
structure JourneyState where
  course_id : Str
  syllabus_summary : Str
  nodes : List JourneyNode
  current_node_index : Nat := 0
  deriving Repr, DecidableEq

/-- Placeholder node used to total `List.get?`-lookups whose index is known
to be in bounds (`findIdx?` results); it is never actually returned. -/
def dummyNode : JourneyNode :=
  { id := [], title := [], description := [], status := [] }

-- =========================================================================
-- backend/api/routes_journey.py
-- =========================================================================

/-- The response dict built by `submit_quiz`.  Keys that a given code path
does not put into the dict are `none`. -/
structure QuizResponse where
  score : Option ℚ := none
  correct_count : Option Nat := none
  total : Option Nat := none
  result : Str
  message : Str
  next_node_id : Option (Option Str) := none
  deriving Repr, DecidableEq

/-- Score counting loop of `submit_quiz`: answers beyond the submitted list
are not counted; a missing `correct_answer` key never matches an `int`. -/
def countCorrect (qs : List QuizQuestion) (answers : List Int) : Nat :=
  (qs.enum.countP fun p =>
    match answers.get? p.1, p.2.correct_answer with
    | some a, some c => a = c
    | _, _ => false)

/-- `submit_quiz` (route body after the journey lookup): finds the node by
id (`none` = HTTP 404), scores the quiz, and on a pass marks the node
completed and unlocks the node at `current_node_index + 1`.
The float score `(correct/total)*100` is modelled as the exact rational;
no claim in this development depends on a float-rounding borderline.
Note the source checks neither the node's `status` nor which node was
completed when choosing the node to unlock. -/
def submit_quiz (s : JourneyState) (node_id : Str) (answers : List Int) :
    Option (JourneyState × QuizResponse) :=
  match s.nodes.findIdx? (fun n => n.id = node_id) with
  | none => none
  | some i =>
    let node := (s.nodes.get? i).getD dummyNode
    let total := node.quiz_questions.length
    if total = 0 then
      some (s, { result := str "pass", message := str "No quiz for this node.",
                 next_node_id := some none })
    else
      let correct_count := countCorrect node.quiz_questions answers
      let score_percent : ℚ := ((correct_count : ℚ) / (total : ℚ)) * 100
      -- `score_percent >= 66` decided over the exact rational; for
      -- `total > 0` (this branch) it is the integer test below.
      let passed : Bool := 100 * correct_count ≥ 66 * total
      let base : QuizResponse :=
        { score := some score_percent, correct_count := some correct_count,
          total := some total,
          result := if passed then str "pass" else str "fail",
          message := [] }
      if passed then
        let nodes1 := s.nodes.set i { node with status := str "completed" }
        let next_index := s.current_node_index + 1
        if next_index < s.nodes.length then
          let nodes2 := nodes1.set next_index
            { (nodes1.get? next_index).getD dummyNode with
              status := str "unlocked" }
          some ({ s with nodes := nodes2, current_node_index := next_index },
                { base with
                  message := str "Congratulations! You passed.",
                  next_node_id :=
                    some (some (((nodes2.get? next_index).getD dummyNode).id)) })
        else
          some ({ s with nodes := nodes1 },
                { base with
                  message := str
                    "Course Completed! You represent the pinnacle of learning.",
                  next_node_id := some none })
      else
        some (s, { base with
                   message :=
                     str "You didn't pass. Review the material and try again.",
                   next_node_id := some none })

/-- HTTP-error signal raised by the journey routes (status code, detail). -/
structure HttpError where
  status_code : Nat
  detail : Str
  deriving Repr, DecidableEq

/-- Result of `journey_agent.generate_node_content` as consumed by the
route (`data.get("content_summary", "")`, `data.get("quiz_questions", [])`). -/
structure GenContent where
  content_summary : Str
  quiz_questions : List QuizQuestion
  deriving Repr, DecidableEq

/-- `get_node_content` (route body after the journey lookup).  `gen` is
the content-generation call for a node title; the route mutates the node
in place when content or quiz is missing, so the possibly-updated state
is returned along with the node.  Note that in the source the call at
routes_journey.py:131 passes a `course_id=` keyword that
`generate_node_content` (journey_graph.py:144) does not accept, so
as written the generation branch raises `TypeError` (HTTP 500) instead
of ever invoking the agent; `gen` models the call's intended result, and
no claim theorem depends on the generation branch — the locked-node
rejection (C2) is decided before it, and quiz gating (C3, C8) quantifies
over journey states directly. -/
def get_node_content (s : JourneyState) (node_id : Str)
    (gen : Str → GenContent) :
    Except HttpError (JourneyState × JourneyNode) :=
  match s.nodes.findIdx? (fun n => n.id = node_id) with
  | none => .error { status_code := 404, detail := str "Node not found" }
  | some i =>
    let node := (s.nodes.get? i).getD dummyNode
    if node.status = str "locked" then
      .error { status_code := 403,
               detail := str "Node is locked. Complete previous levels first." }
    else
      if node.content_summary = [] ∨ node.quiz_questions = [] then
        let data := gen node.title
        let node' := { node with content_summary := data.content_summary,
                                 quiz_questions := data.quiz_questions }
        .ok ({ s with nodes := s.nodes.set i node' }, node')
      else
        .ok (s, node)

/-- One quiz-submission request (node id, chosen answer indices). -/
abbrev QuizReq := Str × List Int

/-- A sequence of quiz submissions applied to a journey: requests whose node
id does not exist (HTTP 404) leave the state unchanged. -/
def applyQuizSeq (s : JourneyState) : List QuizReq → JourneyState
  | [] => s
  | r :: rs =>
    match submit_quiz s r.1 r.2 with
    | none => applyQuizSeq s rs
    | some (s', _) => applyQuizSeq s' rs

-- =========================================================================
-- A model of Python `json.loads` (strict mode), used by the extraction
-- utilities.  JSON numbers are modelled as integers, which covers every
-- document the agents exchange (marks, correct-answer indices, ids).
-- =========================================================================

/-- Parsed JSON values.  Objects keep their members in source order;
lookups take the last binding for a key, as a Python dict built by the
parser would.  A float literal (or one of the constants `NaN`,
`Infinity`, `-Infinity` that `json.loads` also accepts) is kept as its
source text in `fnum`: IEEE semantics are outside this model and nothing
in the embedded code inspects a float's value — only its type, which has
no `len`, matters. -/
inductive Json where
  | null : Json
  | bool (b : Bool) : Json
  | num (n : Int) : Json
  | fnum (lit : Str) : Json
  | jstr (s : Str) : Json
  | arr (xs : List Json) : Json
  | obj (kvs : List (Str × Json)) : Json

/-- Python `dict.get(k)` on a parsed object: last binding wins
(later duplicate keys overwrite earlier ones when the dict is built). -/
def objGet (kvs : List (Str × Json)) (k : Str) : Option Json :=
  (kvs.reverse.find? (fun p => p.1 = k)).map (·.2)

/-- JSON inter-token whitespace (the four characters `json` accepts). -/
def jsonWs (c : Char) : Bool :=
  c = ' ' || c = '\t' || c = '\n' || c = '\r'

/-- Skip inter-token whitespace. -/
def skipWs (s : Str) : Str := s.dropWhile jsonWs

/-- Hexadecimal digit value. -/
def hexVal (c : Char) : Option Nat :=
  if '0' ≤ c ∧ c ≤ '9' then some (c.toNat - 48)
  else if 'a' ≤ c ∧ c ≤ 'f' then some (c.toNat - 87)
  else if 'A' ≤ c ∧ c ≤ 'F' then some (c.toNat - 55)
  else none

/-- Body of a JSON string literal, after the opening quote.  Strict mode:
a raw control character (code point below 0x20) is rejected, exactly the
check `json.loads` performs by default. -/
def parseStringRest : Str → Option (Str × Str)
  | [] => none
  | '"' :: rest => some ([], rest)
  | '\\' :: e :: rest =>
    match e with
    | '"' => (parseStringRest rest).map (fun p => ('"' :: p.1, p.2))
    | '\\' => (parseStringRest rest).map (fun p => ('\\' :: p.1, p.2))
    | '/' => (parseStringRest rest).map (fun p => ('/' :: p.1, p.2))
    | 'b' => (parseStringRest rest).map (fun p => ('\x08' :: p.1, p.2))
    | 'f' => (parseStringRest rest).map (fun p => ('\x0c' :: p.1, p.2))
    | 'n' => (parseStringRest rest).map (fun p => ('\n' :: p.1, p.2))
    | 'r' => (parseStringRest rest).map (fun p => ('\r' :: p.1, p.2))
    | 't' => (parseStringRest rest).map (fun p => ('\t' :: p.1, p.2))
    | 'u' =>
      match rest with
      | h1 :: h2 :: h3 :: h4 :: rest' =>
        match hexVal h1, hexVal h2, hexVal h3, hexVal h4 with
        | some a, some b, some c, some d =>
          let n := ((a * 16 + b) * 16 + c) * 16 + d
          if _h : n.isValidChar then
            (parseStringRest rest').map (fun p => (Char.ofNat n :: p.1, p.2))
          else none
        | _, _, _, _ => none
      | _ => none
    | _ => none
  | c :: rest =>
    if c.toNat < 0x20 then none
    else (parseStringRest rest).map (fun p => (c :: p.1, p.2))

/-- Fraction part of the JSON number grammar (`(\.\d+)?`): a dot must be
followed by at least one digit; no dot consumes nothing. -/
def parseFrac (s : Str) : Option (Str × Str) :=
  match s with
  | '.' :: rest =>
    let ds := rest.takeWhile Char.isDigit
    if ds = [] then none
    else some ('.' :: ds, rest.dropWhile Char.isDigit)
  | _ => some ([], s)

/-- Exponent part of the JSON number grammar (`([eE][-+]?\d+)?`). -/
def parseExpPart (s : Str) : Option (Str × Str) :=
  match s with
  | [] => some ([], [])
  | c :: rest =>
    if c = 'e' ∨ c = 'E' then
      match rest with
      | [] => none
      | sgn :: rest2 =>
        if sgn = '+' ∨ sgn = '-' then
          let ds := rest2.takeWhile Char.isDigit
          if ds = [] then none
          else some (c :: sgn :: ds, rest2.dropWhile Char.isDigit)
        else
          let ds := rest.takeWhile Char.isDigit
          if ds = [] then none
          else some (c :: ds, rest.dropWhile Char.isDigit)
    else some ([], s)

/-- The `json.loads` number grammar
`-?(0|[1-9]\d*)(\.\d+)?([eE][-+]?\d+)?`: a plain integer yields
`Json.num`; a fraction or exponent makes it a Python float, kept as its
literal text in `Json.fnum`.  Leading zeros are rejected as in the
source grammar (such inputs make `json.loads` fail overall, as here). -/
def parseNumber (s : Str) : Option (Json × Str) :=
  let neg : Bool := match s with
    | '-' :: _ => true
    | _ => false
  let s' : Str := match s with
    | '-' :: rest => rest
    | _ => s
  let digits := s'.takeWhile Char.isDigit
  let rest := s'.dropWhile Char.isDigit
  if digits = [] then none
  else if 2 ≤ digits.length ∧ digits.head? = some '0' then none
  else
    match parseFrac rest with
    | none => none
    | some fr =>
      match parseExpPart fr.2 with
      | none => none
      | some ex =>
        if fr.1 = [] ∧ ex.1 = [] then
          let v : Nat := digits.foldl (fun a c => a * 10 + (c.toNat - 48)) 0
          some (.num (if neg then -(v : Int) else (v : Int)), rest)
        else
          some (.fnum ((if neg then ['-'] else []) ++ digits ++ fr.1 ++ ex.1),
                ex.2)

mutual

/-- One JSON value (fuel-indexed recursive-descent). -/
def parseValue : Nat → Str → Option (Json × Str)
  | 0, _ => none
  | fuel + 1, s =>
    match skipWs s with
    | [] => none
    | c :: r =>
      if c = '{' then parseObjBody fuel r
      else if c = '[' then parseArrBody fuel r
      else if c = '"' then (parseStringRest r).map (fun p => (.jstr p.1, p.2))
      else if (c :: r).take 4 = str "true" then some (.bool true, (c :: r).drop 4)
      else if (c :: r).take 5 = str "false" then some (.bool false, (c :: r).drop 5)
      else if (c :: r).take 4 = str "null" then some (.null, (c :: r).drop 4)
      else if (c :: r).take 3 = str "NaN" then
        some (.fnum (str "NaN"), (c :: r).drop 3)
      else if (c :: r).take 8 = str "Infinity" then
        some (.fnum (str "Infinity"), (c :: r).drop 8)
      else if (c :: r).take 9 = str "-Infinity" then
        some (.fnum (str "-Infinity"), (c :: r).drop 9)
      else parseNumber (c :: r)

/-- Object body after the opening brace. -/
def parseObjBody : Nat → Str → Option (Json × Str)
  | 0, _ => none
  | fuel + 1, s =>
    match skipWs s with
    | '}' :: rest => some (.obj [], rest)
    | _ => parseMembers fuel [] s

/-- Comma-separated `"key": value` members, ending at a closing brace. -/
def parseMembers : Nat → List (Str × Json) → Str → Option (Json × Str)
  | 0, _, _ => none
  | fuel + 1, acc, s =>
    match skipWs s with
    | '"' :: r =>
      match parseStringRest r with
      | none => none
      | some (k, s2) =>
        match skipWs s2 with
        | ':' :: s3 =>
          match parseValue fuel s3 with
          | none => none
          | some (v, s4) =>
            match skipWs s4 with
            | ',' :: s5 => parseMembers fuel (acc ++ [(k, v)]) s5
            | '}' :: s5 => some (.obj (acc ++ [(k, v)]), s5)
            | _ => none
        | _ => none
    | _ => none

/-- Array body after the opening bracket. -/
def parseArrBody : Nat → Str → Option (Json × Str)
  | 0, _ => none
  | fuel + 1, s =>
    match skipWs s with
    | ']' :: rest => some (.arr [], rest)
    | _ => parseElems fuel [] s

/-- Comma-separated array elements, ending at a closing bracket. -/
def parseElems : Nat → List Json → Str → Option (Json × Str)
  | 0, _, _ => none
  | fuel + 1, acc, s =>
    match parseValue fuel s with
    | none => none
    | some (v, s2) =>
      match skipWs s2 with
      | ',' :: s3 => parseElems fuel (acc ++ [v]) s3
      | ']' :: s3 => some (.arr (acc ++ [v]), s3)
      | _ => none

end

/-- `json.loads`: parse one value and require only whitespace after it. -/
def parseJson (s : Str) : Option Json :=
  match parseValue (s.length + 1) s with
  | some (v, rest) => if skipWs rest = [] then some v else none
  | none => none

-- =========================================================================
-- Structured-extraction helpers shared by the agents
-- =========================================================================

/-- Split at the first (leftmost) occurrence of `pat`, returning the text
before it and the text after it. -/
def splitFirstAt (pat : Str) : Str → Option (Str × Str)
  | [] => if pat.isPrefixOf [] then some ([], []) else none
  | s@(c :: rest) =>
    if pat.isPrefixOf s then some ([], s.drop pat.length)
    else (splitFirstAt pat rest).map (fun p => (c :: p.1, p.2))

/-- `re.search(r"```tag\n(.*?)```", content, re.DOTALL)`: interior of the
first tagged fence (lazy: up to the first closing backticks), together with
the whole matched text (`group(0)`). -/
def fenceMatch (tag : Str) (s : Str) : Option (Str × Str) :=
  match splitFirstAt (str "```" ++ tag ++ ['\n']) s with
  | none => none
  | some (_, rest) =>
    match splitFirstAt (str "```") rest with
    | none => none
    | some (interior, _) =>
      some (interior,
            str "```" ++ tag ++ ['\n'] ++ interior ++ str "```")

/-- Interior of the first tagged fence (`group(1)`). -/
def fenceInterior (tag : Str) (s : Str) : Option Str :=
  (fenceMatch tag s).map (·.1)

/-- `re.search(r"\[.*\]", content, re.DOTALL)` (greedy): from the first
opening bracket to the last closing bracket after it; `none` when no such
pair exists.  `o`/`c` are the bracket characters. -/
def greedySpan (o c : Char) (s : Str) : Option Str :=
  match splitFirstAt [o] s with
  | none => none
  | some (_, rest) =>
    match splitFirstAt [c] rest.reverse with
    | none => none
    | some (_, revMid) => some (o :: (revMid.reverse ++ [c]))

/-- The control characters targeted by `[\x00-\x1f\x7f-\x9f]`. -/
def isCtrl (ch : Char) : Bool :=
  ch.toNat < 0x20 || (0x7f ≤ ch.toNat && ch.toNat ≤ 0x9f)

/-- `re.sub(r"[\x00-\x1f\x7f-\x9f]", "", s)`. -/
def removeCtrl (s : Str) : Str := s.filter (fun ch => !isCtrl ch)

/-- `re.sub(r"[\x00-\x1f\x7f-\x9f]", " ", s)`. -/
def ctrlToSpace (s : Str) : Str := s.map (fun ch => if isCtrl ch then ' ' else ch)

-- =========================================================================
-- backend/agents/examiner_graph.py : blueprint_node (lines 93-133)
-- =========================================================================

/-- Extraction-and-parse step of `blueprint_node`: first `json` fence,
else greedy `\[.*\]` span, else the whole text; then `strip()`, then
control characters removed, then `json.loads`. -/
def blueprintParse (content : Str) : Option Json :=
  let c :=
    match fenceInterior (str "json") content with
    | some i => i
    | none =>
      match greedySpan '[' ']' content with
      | some sp => sp
      | none => content
  parseJson (removeCtrl (pyStrip c))

/-- The hand-authored fallback blueprint. -/
def fallbackBlueprint : List Json :=
  [ .obj [(str "module", .jstr (str "Core Concepts")),
          (str "marks", .num 30),
          (str "topics", .arr [.jstr (str "Fundamentals"),
                               .jstr (str "Definitions")])],
    .obj [(str "module", .jstr (str "Applications")),
          (str "marks", .num 25),
          (str "topics", .arr [.jstr (str "Practical applications")])],
    .obj [(str "module", .jstr (str "Advanced Topics")),
          (str "marks", .num 25),
          (str "topics", .arr [.jstr (str "Complex concepts")])],
    .obj [(str "module", .jstr (str "Problem Solving")),
          (str "marks", .num 20),
          (str "topics", .arr [.jstr (str "Numerical problems")])] ]

/-- Is a parsed value a JSON object (a Python dict)? -/
def Json.isObj : Json → Bool
  | .obj _ => true
  | _ => false

/-- Is a parsed value a JSON array (a Python list)? -/
def Json.isArr : Json → Bool
  | .arr _ => true
  | _ => false

/-- `blueprint_node`, as a function of the LLM response (`none` = the call
raised).  Any failure inside the `try` — parse error, a non-list or empty
result (explicit `ValueError`), or a non-dict element (the logging loop's
`item.get` raises `AttributeError`) — falls back to the canned blueprint. -/
def blueprint_node (resp : Option Str) : List Json :=
  match resp with
  | none => fallbackBlueprint
  | some content =>
    match blueprintParse content with
    | some (.arr xs) =>
      if !xs.isEmpty && xs.all Json.isObj then xs else fallbackBlueprint
    | _ => fallbackBlueprint

-- =========================================================================
-- backend/agents/journey_graph.py : extraction and design_curriculum
-- =========================================================================

/-- Extraction-and-parse step of `JourneyAgent.design_curriculum`: first
`json` fence, else greedy `\[.*\]` span, else the whole text; control
characters replaced by spaces, then `strip()`, empty content raises
(`ValueError`, modelled as `none`), then `json.loads`. -/
def curriculumParse (content : Str) : Option Json :=
  let c :=
    match fenceInterior (str "json") content with
    | some i => i
    | none =>
      match greedySpan '[' ']' content with
      | some sp => sp
      | none => content
  let c := pyStrip (ctrlToSpace c)
  if c = [] then none else parseJson c

/-- Extraction-and-parse step of `JourneyAgent.generate_node_content`:
first `json` fence, else greedy `\{.*\}` span, else the whole text;
control characters replaced by spaces, then the two-character sequence
`\n` replaced by a real newline ("keep actual newlines"), then `strip()`,
empty raises, then `json.loads`. -/
def nodeContentParse (content : Str) : Option Json :=
  let c :=
    match fenceInterior (str "json") content with
    | some i => i
    | none =>
      match greedySpan '{' '}' content with
      | some sp => sp
      | none => content
  let c := ctrlToSpace c
  let c := replaceAllSub ['\\', 'n'] ['\n'] c
  let c := pyStrip c
  if c = [] then none else parseJson c

/-- `item.get(key, default)` for a string-valued pydantic field: a missing
key yields the default; a present non-string value fails `JourneyNode`
validation (the exception lands in the generic handler). -/
def jGetStr (kvs : List (Str × Json)) (k : Str) (dflt : Str) : Option Str :=
  match objGet kvs k with
  | none => some dflt
  | some (.jstr s) => some s
  | some _ => none

/-- Node-building loop of `design_curriculum`: every parsed element must be
a dict (otherwise `item.get` raises) with string fields where present. -/
def mkJourneyNodes (xs : List Json) : Option (List JourneyNode) :=
  xs.enum.mapM fun p =>
    match p.2 with
    | .obj kvs => do
      let id ← jGetStr kvs (str "id") (str "node_" ++ natToChars (p.1 + 1))
      let title ← jGetStr kvs (str "title") (str "Topic " ++ natToChars (p.1 + 1))
      let descr ← jGetStr kvs (str "description") (str "Learning objective")
      pure ({ id := id, title := title, description := descr,
              status := str "locked" } : JourneyNode)
    | _ => none

/-- `if nodes: nodes[0].status = "unlocked"`. -/
def markFirstUnlocked : List JourneyNode → List JourneyNode
  | [] => []
  | n :: ns => { n with status := str "unlocked" } :: ns

/-- The hand-authored fallback curriculum (3 nodes, first unlocked). -/
def fallbackCurriculum : List JourneyNode :=
  [ { id := str "node_1", title := str "Introduction",
      description := str "Learn the basics", status := str "unlocked" },
    { id := str "node_2", title := str "Core Concepts",
      description := str "Understand key ideas", status := str "locked" },
    { id := str "node_3", title := str "Advanced Topics",
      description := str "Master advanced concepts", status := str "locked" } ]

/-- `design_curriculum`, as a function of the LLM response (`none` = the
call raised).  The non-array parse results mirror Python iteration:
an empty dict or empty string iterates zero times and returns `[]`;
any non-empty non-array iterable hits `item.get` and falls back; numbers,
booleans and `null` are not iterable and fall back. -/
def design_curriculum (resp : Option Str) : List JourneyNode :=
  match resp with
  | none => fallbackCurriculum
  | some content =>
    match curriculumParse content with
    | none => fallbackCurriculum
    | some (.arr xs) =>
      match mkJourneyNodes xs with
      | some ns => markFirstUnlocked ns
      | none => fallbackCurriculum
    | some (.obj kvs) => if kvs.isEmpty then [] else fallbackCurriculum
    | some (.jstr cs) => if cs.isEmpty then [] else fallbackCurriculum
    | some _ => fallbackCurriculum

-- =========================================================================
-- backend/models/exam.py and retrieved documents
-- =========================================================================

/-- A retrieved document: `page_content` plus the metadata fields the
selector reads with `doc.metadata.get(key, default)` (hence `Option`).
Marks are the non-negative integers produced by exam ingestion. -/
structure Doc where
  page_content : Str
  marks : Option Nat := none
  source_file : Option Str := none
  year : Option Str := none
  module : Option Str := none
  difficulty : Option Str := none
  deriving Repr, DecidableEq

/-- `QuestionMetadata` (pydantic model). -/
structure QuestionMetadata where
  source_file : Str
  year : Option Str := none
  marks : Nat
  module : Option Str := none
  difficulty : Option Str := none
  deriving Repr, DecidableEq

/-- `ExamQuestion` (pydantic model). -/
structure ExamQuestion where
  text : Str
  metadata : QuestionMetadata
  deriving Repr, DecidableEq

/-- `ExamStructure` (pydantic model). -/
structure ExamStructure where
  structure_type : Str := str "unit_wise"
  unit_count : Nat
  subquestion_labels : List Str
  has_or_choice : Bool
  marks_per_subquestion : Nat
  deriving Repr, DecidableEq

/-- `PlacedQuestion` (pydantic model). -/
structure PlacedQuestion where
  unit_no : Nat
  main_choice : Str
  sub_label : Str
  text : Str
  marks : Nat
  source_file : Str
  module : Str
  deriving Repr, DecidableEq

-- =========================================================================
-- backend/agents/examiner_graph.py : selector_node (lines 137-215)
-- =========================================================================

/-- The selector's dedup key `hash(doc.page_content[:100])`: a hash of the
first 100 characters only.  The Python `hash` is abstracted as the prefix
itself (an injective stand-in; real `hash` collisions only ever merge more
items, they are not load-bearing anywhere). -/
def qKey (content : Str) : Str := content.take 100

/-- Trace of what the selector did with each candidate that reached the
inner loop: already-seen key, rejected by the mark quota (key was still
recorded first), or selected. -/
inductive SelEvent where
  | dup (key : Str) : SelEvent
  | rejected (key : Str) : SelEvent
  | selected (key : Str) : SelEvent
  deriving Repr, DecidableEq

/-- The key an event recorded into `used_question_hashes`, if any. -/
def SelEvent.freshKey : SelEvent → Option Str
  | .dup _ => none
  | .rejected k => some k
  | .selected k => some k

/-- Run-wide selector state: the accumulated questions, the run-wide used
hash set, and the instrumentation trace. -/
structure SelState where
  selected_questions : List ExamQuestion := []
  used_question_hashes : List Str := []
  trace : List SelEvent := []
  deriving Repr, DecidableEq

/-- Inner loop body of `selector_node` for one candidate document.
The pair's second component is `current_marks` for the module being
filled.  The `break` on `current_marks >= target_marks` is modelled as a
guard: skipping the rest of the documents is equivalent because
`current_marks` never changes once the guard holds.  Note the order:
the dedup key is added to the used set BEFORE the quota check. -/
def processDoc (module : Str) (target : Nat) :
    SelState × Nat → Doc → SelState × Nat :=
  fun (st, current_marks) doc =>
    if current_marks ≥ target then (st, current_marks)
    else
      let q_hash := qKey doc.page_content
      if st.used_question_hashes.contains q_hash then
        ({ st with trace := st.trace ++ [.dup q_hash] }, current_marks)
      else
        let used' := st.used_question_hashes ++ [q_hash]
        let q_marks := doc.marks.getD 5
        if current_marks + q_marks > target + 5 then
          ({ st with used_question_hashes := used',
                     trace := st.trace ++ [.rejected q_hash] }, current_marks)
        else
          let question : ExamQuestion :=
            { text := doc.page_content,
              metadata :=
                { source_file := doc.source_file.getD (str "Unknown"),
                  year := some (doc.year.getD (str "2023")),
                  marks := q_marks,
                  module := some (doc.module.getD module),
                  difficulty := some (doc.difficulty.getD (str "Medium")) } }
          ({ st with used_question_hashes := used',
                     selected_questions := st.selected_questions ++ [question],
                     trace := st.trace ++ [.selected q_hash] },
           current_marks + q_marks)

/-- One search query of `selector_node`: `similarity_search(query, k=5)`
(`search q = none` models a raised search error: logged and skipped). -/
def processQuery (search : Str → Option (List Doc)) (module : Str)
    (target : Nat) : SelState × Nat → Str → SelState × Nat :=
  fun (st, current_marks) query =>
    if current_marks ≥ target then (st, current_marks)
    else
      match search query with
      | none => (st, current_marks)
      | some docs => (docs.take 5).foldl (processDoc module target) (st, current_marks)

/-- One blueprint entry as consumed with `item.get(...)` by the selector. -/
structure BlueprintItem where
  module : Option Str := none
  marks : Option Nat := none
  topics : Option (List Str) := none
  deriving Repr, DecidableEq

/-- Per-module summary produced by the instrumented run: the module name
and target, the questions appended while processing this module, and the
final `current_marks` for the module. -/
structure ModuleReport where
  module : Str
  target : Nat
  questions : List ExamQuestion
  total : Nat
  deriving Repr, DecidableEq

/-- Outer loop body of `selector_node` for one blueprint module. -/
def processModule (search : Str → Option (List Doc)) :
    SelState × List ModuleReport → BlueprintItem →
    SelState × List ModuleReport :=
  fun (st, reports) item =>
    let module := item.module.getD (str "General")
    let target_marks := item.marks.getD 20
    let search_queries := module :: item.topics.getD [module]
    let base := st.selected_questions.length
    let res :=
      search_queries.foldl (processQuery search module target_marks) (st, 0)
    (res.1, reports ++ [{ module := module, target := target_marks,
                          questions := res.1.selected_questions.drop base,
                          total := res.2 }])

/-- The full instrumented `selector_node` run. -/
def selectorRun (search : Str → Option (List Doc))
    (blueprint : List BlueprintItem) : SelState × List ModuleReport :=
  blueprint.foldl (processModule search) ({}, [])

/-- `selector_node`: the selected questions of a run. -/
def selector_node (search : Str → Option (List Doc))
    (blueprint : List BlueprintItem) : List ExamQuestion :=
  (selectorRun search blueprint).1.selected_questions

-- =========================================================================
-- backend/services/question_selector.py : build_exam_from_syllabus
-- =========================================================================

/-- Line filter of the topic-breakdown step: keep lines that are non-blank
after stripping AND whose raw first character is a digit or a dash; the
kept lines are stripped. -/
def topicLines (content : Str) : List Str :=
  ((splitOnChar '\n' content).filter fun l =>
      !(pyStrip l).isEmpty &&
        (match l.head? with
         | some c => c.isDigit || c = '-'
         | none => false)).map pyStrip

/-- The synthetic topic appended while fewer than `unit_count` topics were
parsed (`f"Unit {len(unit_topics)+1} General Topic"`). -/
def unitPadName (k : Nat) : Str :=
  str "Unit " ++ natToChars k ++ str " General Topic"

/-- The while-loop padding: each appended name uses the length at the time
of appending. -/
def padTopics (ts : List Str) (n : Nat) : List Str :=
  ts ++ (List.range (n - ts.length)).map (fun k => unitPadName (ts.length + k + 1))

/-- Unit topics (Step 1): parsed-and-padded on LLM success, fully
synthetic (`f"Unit {i+1}"`) when the call raised. -/
def unitTopics (llmResp : Option Str) (n : Nat) : List Str :=
  match llmResp with
  | none => (List.range n).map (fun i => str "Unit " ++ natToChars (i + 1))
  | some content => padTopics ((topicLines content).take n) n

/-- Candidate scan for one slot: skip candidates failing the (truthy)
subject filter, skip duplicates keyed by `hash(doc.page_content)` — the
FULL content — and pick the first survivor. -/
def scanDocs (filt : Option Str) (used : List Str) : List Doc → Option Doc
  | [] => none
  | d :: ds =>
    let source_file := d.source_file.getD []
    if (match filt with
        | some f => !f.isEmpty && !(isSubstr (lowerStr f) (lowerStr source_file))
        | none => false) then scanDocs filt used ds
    else if used.contains d.page_content then scanDocs filt used ds
    else some d

/-- One `(unit, choice, sub_label)` slot: either the first surviving
candidate (tagged `true`) or the placeholder (tagged `false`).  The tag is
instrumentation only; the source's output is the untagged projection. -/
def fillSlot (store : Str → List Doc) (filt : Option Str)
    (es : ExamStructure) :
    List Str × List (PlacedQuestion × Bool) → Nat × Str × Str × Str →
    List Str × List (PlacedQuestion × Bool) :=
  fun (used, out) slot =>
    let unit_no := slot.1
    let topic := slot.2.1
    let choice := slot.2.2.1
    let sub_label := slot.2.2.2
    let results := (store (topic ++ [' '] ++ sub_label)).take 25
    match scanDocs filt used results with
    | some d =>
      (used ++ [d.page_content],
       out ++ [({ unit_no := unit_no, main_choice := choice,
                  sub_label := sub_label, text := d.page_content,
                  marks := es.marks_per_subquestion,
                  source_file := d.source_file.getD (str "Unknown"),
                  module := topic }, true)])
    | none =>
      (used,
       out ++ [({ unit_no := unit_no, main_choice := choice,
                  sub_label := sub_label,
                  text := str "Question about " ++ topic ++
                          str " not found in DB.",
                  marks := es.marks_per_subquestion,
                  source_file := str "System",
                  module := topic }, false)])

/-- The slot enumeration: for each unit topic, for each choice group
(A, and B when `has_or_choice`), for each sub-question label. -/
def examSlots (topics : List Str) (es : ExamStructure) :
    List (Nat × Str × Str × Str) :=
  topics.enum.flatMap fun p =>
    (if es.has_or_choice then [str "A", str "B"] else [str "A"]).flatMap
      fun choice =>
        es.subquestion_labels.map fun sub => (p.1 + 1, p.2, choice, sub)

/-- Instrumented `build_exam_from_syllabus` (each placed question tagged
with whether it came from a retrieved document). -/
def buildExamTagged (llmResp : Option Str) (store : Str → List Doc)
    (filt : Option Str) (es : ExamStructure) : List (PlacedQuestion × Bool) :=
  ((examSlots (unitTopics llmResp es.unit_count) es).foldl
      (fillSlot store filt es) ([], [])).2

/-- `build_exam_from_syllabus`. -/
def build_exam_from_syllabus (llmResp : Option Str)
    (store : Str → List Doc) (filt : Option Str) (es : ExamStructure) :
    List PlacedQuestion :=
  (buildExamTagged llmResp store filt es).map (·.1)

-- =========================================================================
-- backend/agents/tutor_graph.py : the orchestrator (nodes and graph)
-- =========================================================================

/-- `:` index in the same line (the lazy `.*?:` without DOTALL cannot
cross a newline). -/
def findColonSameLine : Str → Option Nat
  | [] => none
  | ':' :: _ => some 0
  | '\n' :: _ => none
  | _ :: rest => (findColonSameLine rest).map (· + 1)

/-- `re.sub(r"Here is the .*?:", "", content, flags=re.IGNORECASE)`:
non-overlapping, leftmost-first; a match needs a `:` on the same line. -/
def hereIsSubAux : Nat → Str → Str
  | 0, s => s
  | _ + 1, [] => []
  | fuel + 1, s@(ch :: rest) =>
    if lowerStr (s.take 12) = str "here is the " then
      match findColonSameLine (s.drop 12) with
      | some k => hereIsSubAux fuel (s.drop (12 + k + 1))
      | none => ch :: hereIsSubAux fuel rest
    else ch :: hereIsSubAux fuel rest

/-- `re.sub(r"Here is the .*?:", "", content, flags=re.IGNORECASE)`. -/
def hereIsSub (s : Str) : Str := hereIsSubAux (s.length + 1) s

/-- `re.sub(r"\n{3,}", "\n\n", content)`: collapse runs of three or more
newlines into exactly two. -/
def squeezeNewlinesAux : Nat → Str → Str
  | 0, s => s
  | _ + 1, [] => []
  | fuel + 1, '\n' :: rest =>
    if 2 ≤ (rest.takeWhile (· = '\n')).length then
      '\n' :: '\n' :: squeezeNewlinesAux fuel (rest.dropWhile (· = '\n'))
    else '\n' :: squeezeNewlinesAux fuel rest
  | fuel + 1, c :: rest => c :: squeezeNewlinesAux fuel rest

/-- `re.sub(r"\n{3,}", "\n\n", content)`. -/
def squeezeNewlines (s : Str) : Str := squeezeNewlinesAux (s.length + 1) s

/-- The request-derived inputs placed into the initial graph state by
`routes_tutor.start_session`. -/
structure TutorInput where
  user_query : Str
  user_id : Str
  session_name : Str
  generate_audio : Bool := false
  language_code : Str := str "en-IN"
  deriving Repr, DecidableEq

/-- The external collaborators of one tutor run.  `none` for a call result
models the call raising; the retriever is a function because it is invoked
once for the main query and once per planned sub-topic. -/
structure TutorCollab where
  planResp : Option Str
  retrOk : Bool
  retr : Str → Option (List Str)
  genResp : Option Str
  tts : Str → Str → Option (Option Str)

/-- `TutorState`: each stage-owned field is `none` until the owning stage
writes it (LangGraph merges each node's partial update by field name). -/
structure TutorState where
  detected_intent : Option Str := none
  language_code : Option Str := none
  generate_audio : Option Bool := none
  plan : Option (List Str) := none
  context : Option Str := none
  response : Option Str := none
  mindmap_source : Option (Option Str) := none
  flashcards : Option (Option Json) := none
  audio_base64 : Option (Option Str) := none

/-- The initial state dict built in `routes_tutor.start_session`
(`plan`, `context`, `response` are pre-seeded empty there). -/
def initTutorState (inp : TutorInput) : TutorState :=
  { plan := some [], context := some [], response := some [],
    generate_audio := some inp.generate_audio,
    language_code := some inp.language_code }

/-- NODE 1 `intent_router_node`: pure classification. -/
def intent_router_node (inp : TutorInput) (s : TutorState) : TutorState :=
  { s with
    detected_intent := some (detect_intent inp.user_query),
    language_code := some (detect_language inp.user_query),
    generate_audio :=
      some (should_generate_audio inp.user_query (s.generate_audio.getD false)) }

/-- NODE 2 `planner_node`: the LLM call is NOT wrapped in a `try`, so a
raised call (`planResp = none`) escapes the stage. -/
def planner_node (c : TutorCollab) (s : TutorState) :
    Except Unit TutorState :=
  match c.planResp with
  | none => .error ()
  | some content =>
    .ok { s with
          plan :=
            some (((splitOnChar ',' content).map pyStrip).filter
              (fun item => !item.isEmpty)) }

/-- NODE 3 `retriever_node`: everything is inside `try`/`except`, the
fallback context is the empty string; per-sub-topic retrieval failures are
swallowed individually. -/
def retriever_node (inp : TutorInput) (c : TutorCollab) (s : TutorState) :
    TutorState :=
  let context :=
    if !c.retrOk then []
    else
      match c.retr inp.user_query with
      | none => []
      | some docs =>
        let all_contexts :=
          docs ++ ((s.plan.getD []).take 2).flatMap (fun subtopic =>
            match c.retr subtopic with
            | none => []
            | some ds => ds.take 2)
        joinSep (str "\n\n---\n\n") ((dedupFirst all_contexts).take 5)
  { s with context := some context }

/-- NODE 4 `generator_node`: the LLM call is NOT wrapped in a `try`; only
`json.JSONDecodeError` is caught during flashcard extraction, so a fenced
JSON payload that parses to a non-dict (`data.get` raises
`AttributeError`) or whose `flashcards` value has no `len`
(`TypeError`) escapes the stage. -/
def generator_node (c : TutorCollab) (s : TutorState) :
    Except Unit TutorState :=
  match c.genResp with
  | none => .error ()
  | some content0 =>
    let mm := fenceMatch (str "mermaid") content0
    let content1 :=
      match mm with
      | some p => pyStrip (replaceAllSub p.2 [] content0)
      | none => content0
    let mindmap_source :=
      match mm with
      | some p => some (pyStrip p.1)
      | none => none
    let step2 : Except Unit (Str × Option Json) :=
      match fenceMatch (str "json") content1 with
      | none => .ok (content1, none)
      | some p =>
        match parseJson (pyStrip p.1) with
        | none => .ok (content1, none)
        | some (.obj kvs) =>
          match (objGet kvs (str "flashcards")).getD (.arr []) with
          | .num _ => .error ()
          | .fnum _ => .error ()
          | .bool _ => .error ()
          | .null => .error ()
          | fl => .ok (pyStrip (replaceAllSub p.2 [] content1), some fl)
        | some _ => .error ()
    match step2 with
    | .error e => .error e
    | .ok (content2, flashcards) =>
      let content3 := squeezeNewlines (pyStrip (hereIsSub content2))
      .ok { s with
            response := some content3,
            mindmap_source := some mindmap_source,
            flashcards := some flashcards }

/-- NODE 5 `audio_node`: fully guarded; a raised TTS call or a `None`
result both yield a null payload. -/
def audio_node (c : TutorCollab) (s : TutorState) : TutorState :=
  let text := s.response.getD []
  let clean_text :=
    (text.filter (fun ch => !(ch = '*' || ch = '#' || ch = '`'))).take 1000
  let audio :=
    match c.tts clean_text (s.language_code.getD (str "en-IN")) with
    | none => none
    | some a => a
  { s with audio_base64 := some audio }

/-- Conditional edge `should_route_to_audio`. -/
def should_route_to_audio (s : TutorState) : Bool :=
  s.generate_audio.getD false

/-- The compiled tutor graph: intent router → planner → retriever →
generator → (conditional) audio.  LangGraph propagates a node's exception
out of `invoke`, hence the `Except`. -/
def runTutor (inp : TutorInput) (c : TutorCollab) :
    Except Unit TutorState :=
  let s1 := intent_router_node inp (initTutorState inp)
  match planner_node c s1 with
  | .error e => .error e
  | .ok s2 =>
    let s3 := retriever_node inp c s2
    match generator_node c s3 with
    | .error e => .error e
    | .ok s4 =>
      if should_route_to_audio s4 then .ok (audio_node c s4) else .ok s4

/-- The generator response shapes that do NOT make `generator_node` raise
after a successful LLM call (see `generator_node`). -/
def genFenceOk (content0 : Str) : Bool :=
  let content1 :=
    match fenceMatch (str "mermaid") content0 with
    | some p => pyStrip (replaceAllSub p.2 [] content0)
    | none => content0
  match fenceMatch (str "json") content1 with
  | none => true
  | some p =>
    match parseJson (pyStrip p.1) with
    | none => true
    | some (.obj kvs) =>
      match (objGet kvs (str "flashcards")).getD (.arr []) with
      | .num _ => false
      | .fnum _ => false
      | .bool _ => false
      | .null => false
      | _ => true
    | some _ => false

-- =========================================================================
-- backend/api/routes_journey.py : start_journey (needs design_curriculum)
-- =========================================================================

/-- `start_journey` (route body): a fresh `JourneyState` over the designed
curriculum (`resp` is the curriculum LLM response; `course_id` stands for
the generated uuid prefix). -/
def start_journey (course_id : Str) (syllabus_text : Str)
    (resp : Option Str) : JourneyState :=
  { course_id := course_id,
    syllabus_summary := syllabus_text.take 200,
    nodes := design_curriculum resp,
    current_node_index := 0 }

-- =========================================================================
-- Concrete instances used by the witnesses and counterexamples
-- =========================================================================

/-- A tutor request. -/
def tutorInp : TutorInput :=
  { user_query := str "explain photosynthesis", user_id := str "u1",
    session_name := str "default" }

/-- Both LLM calls succeed, but the generator's fenced JSON object binds
`flashcards` to a float — a payload on which `len(flashcards)` raises an
uncaught `TypeError` in the source. -/
def tutorFloatCollab : TutorCollab :=
  { planResp := some (str "Light reactions, Calvin cycle"),
    retrOk := false, retr := fun _ => none,
    genResp := some (str "```json\n\x7b\"flashcards\": 1.5\x7d```"),
    tts := fun _ _ => none }

/-- A four-option quiz question whose correct answer is index 0. -/
def quizCA0 : QuizQuestion :=
  { question := str "q1",
    options := [str "o1", str "o2", str "o3", str "o4"],
    correct_answer := some 0 }

/-- A journey whose second node is `locked` and has a quiz. -/
def journeyC2 : JourneyState :=
  { course_id := str "c1", syllabus_summary := str "syl",
    nodes :=
      [ { id := str "node_1", title := str "Intro", description := str "d",
          status := str "unlocked", quiz_questions := [quizCA0] },
        { id := str "node_2", title := str "Core", description := str "d",
          status := str "locked", quiz_questions := [quizCA0] },
        { id := str "node_3", title := str "Adv", description := str "d",
          status := str "locked" } ] }

/-- The journey delivered by `start_journey` when the curriculum LLM call
fails: the fallback curriculum (node_1 unlocked, node_2/node_3 locked). -/
def journeyC3Start : JourneyState :=
  start_journey (str "c3") (str "some syllabus") none

/-- A node-content generation result with one quiz question. -/
def genOneQuestion : Str → GenContent :=
  fun _ => { content_summary := str "lesson", quiz_questions := [quizCA0] }

/-- `journeyC3Start` after the first content access populated node_1. -/
def journeyC3Ready : JourneyState :=
  match get_node_content journeyC3Start (str "node_1") genOneQuestion with
  | .ok p => p.1
  | .error _ => journeyC3Start

/-- State after one passing submission for node_1. -/
def journeyC3Mid : JourneyState :=
  applyQuizSeq journeyC3Ready [(str "node_1", [0])]

/-- State after re-submitting node_1's quiz a second time. -/
def journeyC3Final : JourneyState :=
  applyQuizSeq journeyC3Ready [(str "node_1", [0]), (str "node_1", [0])]

/-- A journey whose first (unlocked) node has zero quiz questions. -/
def journeyC8 : JourneyState :=
  { course_id := str "c8", syllabus_summary := str "syl",
    nodes :=
      [ { id := str "node_1", title := str "Intro", description := str "d",
          status := str "unlocked", quiz_questions := [] },
        { id := str "node_2", title := str "Core", description := str "d",
          status := str "locked", quiz_questions := [quizCA0] } ] }

/-- The 2-unit / labels a,b / no OR-choice / 5-mark structure of the
spec's assembly example. -/
def esC5 : ExamStructure :=
  { unit_count := 2, subquestion_labels := [str "a", str "b"],
    has_or_choice := false, marks_per_subquestion := 5 }

/-- An empty candidate pool. -/
def storeEmpty : Str → List Doc := fun _ => []

/-- 101-character content: 100 `a`s then `X`. -/
def contentAX : Str := List.replicate 100 'a' ++ ['X']

/-- 101-character content: the same 100-character prefix, then `Y`. -/
def contentAY : Str := List.replicate 100 'a' ++ ['Y']

/-- A store returning two documents that differ only after the 100-char
dedup prefix. -/
def storeC6 : Str → List Doc :=
  fun _ => [{ page_content := contentAX }, { page_content := contentAY }]

/-- 1-unit / labels a,b structure for the prefix-collision run. -/
def esC6 : ExamStructure :=
  { unit_count := 1, subquestion_labels := [str "a", str "b"],
    has_or_choice := false, marks_per_subquestion := 5 }

/-- Fallback for `List.get?`-lookups on placed questions. -/
def dummyPlaced : PlacedQuestion :=
  { unit_no := 0, main_choice := [], sub_label := [], text := [],
    marks := 0, source_file := [], module := [] }

/-- A candidate worth far more than the module quota allows. -/
def docBig : Doc := { page_content := str "big question", marks := some 100 }

/-- A small candidate that fits the quota. -/
def docSmall : Doc := { page_content := str "small question", marks := some 5 }

/-- Search results for the selector runs: the oversized candidate ranked
first, then the fitting one. -/
def searchC10 : Str → Option (List Doc) := fun _ => some [docBig, docSmall]

/-- One module with a 10-mark target and no extra topics. -/
def blueprintC10 : List BlueprintItem :=
  [{ module := some (str "M1"), marks := some 10, topics := some [] }]

/-- Node-content LLM output: a fenced JSON object whose strings use the
`\n` escape. -/
def respC7 : Str :=
  str "```json\n\x7b\"content_summary\": \"Intro\\nMore\", \"quiz_questions\": []\x7d\n```"

/-- The fence interior of `respC7`. -/
def interiorC7 : Str :=
  str "\x7b\"content_summary\": \"Intro\\nMore\", \"quiz_questions\": []\x7d\n"

-- =========================================================================
-- Theorems
-- =========================================================================

/-- C9 (counterexample): on the query "padhao mujhe hindi mein" the
classifier does NOT report an audio desire: no audio keyword matches and
no "in {language}" pattern occurs ("{language} mein" is only consulted by
the language detector), so the claimed `wants_audio = true` is false. -/
theorem c9_counterexample :
    ¬ should_generate_audio (str "padhao mujhe hindi mein") false = true := by
  decide

/-- C9 (amended): "make me a mindmap of photosynthesis" maps to the
mindmap (diagram-category) intent, and "padhao mujhe hindi mein" maps to
the Hindi code `hi-IN` via the "{language} mein" pattern — but
`wants_audio` is `false` for that query, because audio inference only
tests the audio keyword list and the "in {language}" patterns. -/
theorem c9_amended :
    detect_intent (str "make me a mindmap of photosynthesis") = str "mindmap" ∧
    detect_language (str "padhao mujhe hindi mein") = str "hi-IN" ∧
    should_generate_audio (str "padhao mujhe hindi mein") false = false := by
  exact ⟨by decide, by decide, by decide⟩

/-- C8 (counterexample): submitting a quiz for an unlocked node with zero
questions returns a bare "pass" response and performs NO state
transition: the state is returned unchanged, the node stays "unlocked"
and the next node stays "locked" — the claimed `unlocked → completed`
transition does not happen. -/
theorem c8_counterexample :
    submit_quiz journeyC8 (str "node_1") [] =
      some (journeyC8,
        { result := str "pass", message := str "No quiz for this node.",
          next_node_id := some none }) ∧
    ((journeyC8.nodes.get? 0).getD dummyNode).status = str "unlocked" ∧
    ((journeyC8.nodes.get? 1).getD dummyNode).status = str "locked" := by
  exact ⟨by decide, by decide, by decide⟩

/-- C8 (amended): for every journey node with zero quiz questions, a quiz
submission is reported as a pass ("No quiz for this node.") but mutates
nothing: the same state is returned and no node is completed or
unlocked. -/
theorem c8_amended (s : JourneyState) (nid : Str) (ans : List Int) (i : Nat)
    (hfind : s.nodes.findIdx? (fun n => n.id = nid) = some i)
    (hquiz : ((s.nodes.get? i).getD dummyNode).quiz_questions = []) :
    submit_quiz s nid ans =
      some (s, { result := str "pass",
                 message := str "No quiz for this node.",
                 next_node_id := some none }) := by
  have hq' : (s.nodes[i]?.getD dummyNode).quiz_questions = [] := by
    simpa using hquiz
  unfold submit_quiz
  rw [hfind]
  simp [hq']

/-- C8 (witness): the amended statement at the concrete `journeyC8`. -/
theorem c8_witness :
    submit_quiz journeyC8 (str "node_1") [] =
      some (journeyC8,
        { result := str "pass", message := str "No quiz for this node.",
          next_node_id := some none }) :=
  c8_amended journeyC8 (str "node_1") [] 0 (by decide) (by decide)

/-- C2 (counterexample): a quiz submission for the LOCKED node_2 of
`journeyC2` is not rejected: it is scored, reported as a pass, and it
mutates the journey (node statuses change and `current_node_index`
advances to 1), because `submit_quiz` never checks `node.status`. -/
theorem c2_counterexample :
    (submit_quiz journeyC2 (str "node_2") [0]).map
        (fun p => (p.1.nodes.map (·.status), p.1.current_node_index,
                   p.2.result)) =
      some ([str "unlocked", str "unlocked", str "locked"], 1, str "pass") ∧
    ¬ (submit_quiz journeyC2 (str "node_2") [0]).map (·.1) = some journeyC2 := by
  exact ⟨by decide, by decide⟩

/-- C2 (amended): a content-access request for a locked node is rejected
with HTTP 403 and no state is produced (so nothing is mutated); quiz
submissions, by contrast, are not status-checked at all (see the
counterexample). -/
theorem c2_amended (s : JourneyState) (nid : Str) (gen : Str → GenContent)
    (i : Nat)
    (hfind : s.nodes.findIdx? (fun n => n.id = nid) = some i)
    (hlocked : ((s.nodes.get? i).getD dummyNode).status = str "locked") :
    get_node_content s nid gen =
      .error { status_code := 403,
               detail := str "Node is locked. Complete previous levels first." } := by
  have hl' : (s.nodes[i]?.getD dummyNode).status = str "locked" := by
    simpa using hlocked
  unfold get_node_content
  rw [hfind]
  simp [hl']

/-- C2 (witness): the amended statement at `journeyC2`'s locked node_2. -/
theorem c2_witness :
    get_node_content journeyC2 (str "node_2") genOneQuestion =
      .error { status_code := 403,
               detail := str "Node is locked. Complete previous levels first." } :=
  c2_amended journeyC2 (str "node_2") genOneQuestion 1 (by decide) (by decide)

/-- One quiz submission never decreases `current_node_index`. -/
theorem submit_quiz_index_mono (s : JourneyState) (nid : Str)
    (ans : List Int) (s' : JourneyState) (r : QuizResponse)
    (h : submit_quiz s nid ans = some (s', r)) :
    s.current_node_index ≤ s'.current_node_index := by
  unfold submit_quiz at h
  cases hf : s.nodes.findIdx? (fun n => n.id = nid) with
  | none => rw [hf] at h; exact absurd h (by simp)
  | some i =>
    rw [hf] at h
    simp only at h
    split_ifs at h with h1 h2 h3 <;>
      simp only [Option.some.injEq, Prod.mk.injEq] at h <;>
      obtain ⟨hs, -⟩ := h <;> subst hs <;> simp

/-- C3 (amended): over any sequence of quiz submissions,
`current_node_index` is non-decreasing.  (The unlock-iff-completed half
of the claim fails, see the counterexample.) -/
theorem c3_amended (s : JourneyState) (reqs : List QuizReq) :
    s.current_node_index ≤ (applyQuizSeq s reqs).current_node_index := by
  induction reqs generalizing s with
  | nil => simp [applyQuizSeq]
  | cons r rs ih =>
    unfold applyQuizSeq
    cases hq : submit_quiz s r.1 r.2 with
    | none => exact ih s
    | some p =>
      exact le_trans (submit_quiz_index_mono s r.1 r.2 p.1 p.2 (by rw [hq]))
        (ih p.1)

/-- C3 (witness): monotonicity on the concrete double-submission run. -/
theorem c3_witness :
    journeyC3Ready.current_node_index ≤
      (applyQuizSeq journeyC3Ready
        [(str "node_1", [0]), (str "node_1", [0])]).current_node_index :=
  c3_amended journeyC3Ready [(str "node_1", [0]), (str "node_1", [0])]

/-- C3 (counterexample): starting from the reachable fallback journey
(curriculum LLM failed) with node_1's content generated, submitting
node_1's quiz twice (both passing) unlocks node_3 and advances
`current_node_index` to 2 while node_2 was never completed at any point —
refuting "node i+1 is unlocked iff node i has been completed". -/
theorem c3_counterexample :
    ((journeyC3Final.nodes.get? 2).getD dummyNode).status = str "unlocked" ∧
    ¬ ((journeyC3Ready.nodes.get? 1).getD dummyNode).status = str "completed" ∧
    ¬ ((journeyC3Mid.nodes.get? 1).getD dummyNode).status = str "completed" ∧
    ¬ ((journeyC3Final.nodes.get? 1).getD dummyNode).status = str "completed" ∧
    journeyC3Final.current_node_index = 2 := by
  exact ⟨by decide, by decide, by decide, by decide, by decide⟩

/-- `flatMap` with constant-length images. -/
theorem length_flatMap_const {α β : Type} (l : List α) (n : Nat)
    (f : α → List β) (h : ∀ a ∈ l, (f a).length = n) :
    (l.flatMap f).length = l.length * n := by
  induction l with
  | nil => simp
  | cons a as ih =>
    simp only [List.flatMap_cons, List.length_append, List.length_cons]
    rw [h a (by simp), ih (fun b hb => h b (by simp [hb]))]
    ring

/-- Step 1 always delivers exactly `n` unit topics. -/
theorem length_unitTopics (r : Option Str) (n : Nat) :
    (unitTopics r n).length = n := by
  cases r with
  | none => simp [unitTopics]
  | some content =>
    have hle : ((topicLines content).take n).length ≤ n := by
      simp [List.length_take]
    simp only [unitTopics, padTopics, List.length_append, List.length_map,
      List.length_range]
    omega

/-- Slot count: topics × choice groups × sub-question labels. -/
theorem length_examSlots (topics : List Str) (es : ExamStructure) :
    (examSlots topics es).length =
      topics.length *
        ((if es.has_or_choice then 2 else 1) * es.subquestion_labels.length) := by
  unfold examSlots
  rw [length_flatMap_const _
    ((if es.has_or_choice then 2 else 1) * es.subquestion_labels.length)]
  · rw [List.enum_length]
  · intro p _
    rw [length_flatMap_const _ es.subquestion_labels.length _ (fun c _ => by simp)]
    cases es.has_or_choice <;> simp

/-- Unfolding equation of `isSubstr` at a cons. -/
theorem isSubstr_cons (pat : Str) (d : Char) (rest : Str) :
    isSubstr pat (d :: rest) = (pat.isPrefixOf (d :: rest) || isSubstr pat rest) :=
  rfl

/-- Every list is a prefix of itself. -/
theorem isPrefixOf_self : ∀ l : Str, l.isPrefixOf l = true := by
  intro l
  induction l with
  | nil => rfl
  | cons c cs ih => simp [List.isPrefixOf, ih]

/-- A pattern occurring as a suffix is found. -/
theorem isSubstr_append_self (pat : Str) :
    ∀ a : Str, isSubstr pat (a ++ pat) = true := by
  intro a
  induction a with
  | nil =>
    cases pat with
    | nil => rfl
    | cons c cs =>
      rw [List.nil_append, isSubstr_cons, isPrefixOf_self]
      rfl
  | cons d ds ih =>
    rw [List.cons_append, isSubstr_cons, ih]
    simp

/-- Each slot appends exactly one placed question, with the structure's
per-sub-question marks; a slot not filled from a document is the
placeholder (source "System", diagnostic text). -/
theorem fillSlot_snd (store : Str → List Doc) (filt : Option Str)
    (es : ExamStructure) (acc : List Str × List (PlacedQuestion × Bool))
    (slot : Nat × Str × Str × Str) :
    ∃ e, (fillSlot store filt es acc slot).2 = acc.2 ++ [e] ∧
      e.1.marks = es.marks_per_subquestion ∧
      (e.2 = true ∨
        (e.1.source_file = str "System" ∧
         isSubstr (str " not found in DB.") e.1.text = true)) := by
  obtain ⟨used, out⟩ := acc
  dsimp only [fillSlot]
  split
  · exact ⟨_, rfl, rfl, Or.inl rfl⟩
  · refine ⟨_, rfl, rfl, Or.inr ⟨rfl, ?_⟩⟩
    have : str "Question about " ++ slot.2.1 ++ str " not found in DB." =
        (str "Question about " ++ slot.2.1) ++ str " not found in DB." := by
      simp
    rw [this]
    exact isSubstr_append_self _ _

/-- The assembly fold: output length = input length + slot count. -/
theorem foldl_fillSlot_length (store : Str → List Doc) (filt : Option Str)
    (es : ExamStructure) :
    ∀ (slots : List (Nat × Str × Str × Str))
      (acc : List Str × List (PlacedQuestion × Bool)),
      ((slots.foldl (fillSlot store filt es) acc).2).length =
        acc.2.length + slots.length := by
  intro slots
  induction slots with
  | nil => intro acc; simp
  | cons a as ih =>
    intro acc
    rw [List.foldl_cons, ih]
    obtain ⟨e, he, -⟩ := fillSlot_snd store filt es acc a
    rw [he]
    simp only [List.length_append, List.length_cons, List.length_nil]
    omega

/-- The assembly fold preserves the per-entry properties. -/
theorem foldl_fillSlot_entries (store : Str → List Doc) (filt : Option Str)
    (es : ExamStructure) :
    ∀ (slots : List (Nat × Str × Str × Str))
      (acc : List Str × List (PlacedQuestion × Bool)),
      (∀ q ∈ acc.2, q.1.marks = es.marks_per_subquestion ∧
        (q.2 = true ∨
          (q.1.source_file = str "System" ∧
           isSubstr (str " not found in DB.") q.1.text = true))) →
      ∀ q ∈ (slots.foldl (fillSlot store filt es) acc).2,
        q.1.marks = es.marks_per_subquestion ∧
        (q.2 = true ∨
          (q.1.source_file = str "System" ∧
           isSubstr (str " not found in DB.") q.1.text = true)) := by
  intro slots
  induction slots with
  | nil => intro acc h; simpa using h
  | cons a as ih =>
    intro acc h
    apply ih
    obtain ⟨e, he, hm, hp⟩ := fillSlot_snd store filt es acc a
    rw [he]
    intro q hq
    rcases List.mem_append.mp hq with h1 | h2
    · exact h q h1
    · simp only [List.mem_singleton] at h2
      subst h2
      exact ⟨hm, hp⟩

/-- C5: the unit-wise exam builder always returns exactly
`unit_count × choices × labels` placed questions, every one carrying the
structure's per-sub-question marks and either coming from a retrieved
candidate or being the diagnostic "System" placeholder; in particular,
the spec's example structure (2 units, labels a/b, no OR choice, 5 marks)
over an empty candidate pool yields exactly 4 placeholders of 5 marks
each with grand total 20. -/
theorem build_exam_slot_counts :
    (∀ (llmResp : Option Str) (store : Str → List Doc) (filt : Option Str)
        (es : ExamStructure),
        (build_exam_from_syllabus llmResp store filt es).length =
          es.unit_count *
            ((if es.has_or_choice then 2 else 1) *
              es.subquestion_labels.length) ∧
        ∀ p ∈ buildExamTagged llmResp store filt es,
          p.1.marks = es.marks_per_subquestion ∧
          (p.2 = true ∨
            (p.1.source_file = str "System" ∧
             isSubstr (str " not found in DB.") p.1.text = true))) ∧
    (build_exam_from_syllabus none storeEmpty none esC5).length = 4 ∧
    (∀ q ∈ build_exam_from_syllabus none storeEmpty none esC5,
       q.marks = 5 ∧ q.source_file = str "System") ∧
    ((build_exam_from_syllabus none storeEmpty none esC5).map (·.marks)).sum
      = 20 := by
  refine ⟨fun llmResp store filt es => ⟨?_, ?_⟩, by decide, by decide, by decide⟩
  · unfold build_exam_from_syllabus buildExamTagged
    rw [List.length_map, foldl_fillSlot_length, length_examSlots,
      length_unitTopics]
    simp
  · intro p hp
    exact foldl_fillSlot_entries store filt es _ _ (by simp) p hp

/-- C5 (witness): the universally quantified half applied at the concrete
empty-pool run, membership hypotheses discharged by evaluation. -/
theorem build_exam_slot_counts_witness :
    (build_exam_from_syllabus none storeEmpty none esC5).length =
      esC5.unit_count *
        ((if esC5.has_or_choice then 2 else 1) *
          esC5.subquestion_labels.length) ∧
    ((buildExamTagged none storeEmpty none esC5).get? 0).elim True
        (fun p => p.1.marks = esC5.marks_per_subquestion) := by
  refine ⟨(build_exam_slot_counts.1 none storeEmpty none esC5).1, ?_⟩
  have h := (build_exam_slot_counts.1 none storeEmpty none esC5).2
  cases hg : (buildExamTagged none storeEmpty none esC5).get? 0 with
  | none => exact trivial
  | some p =>
    exact (h p (List.get?_mem hg)).1

/-- A selected candidate was not in the used set. -/
theorem scanDocs_not_used (filt : Option Str) (used : List Str) :
    ∀ (ds : List Doc) (d : Doc), scanDocs filt used ds = some d →
      used.contains d.page_content = false := by
  intro ds
  induction ds with
  | nil => intro d h; exact absurd h (by simp [scanDocs])
  | cons a as ih =>
    intro d h
    simp only [scanDocs] at h
    split_ifs at h with h1 h2
    · exact ih d h
    · exact ih d h
    · cases h
      exact Bool.not_eq_true _ ▸ (by simpa using h2)

/-- Invariant of the slot-filling fold: document-sourced placed questions
have their full text recorded in the used set, and are pairwise
distinct. -/
def TaggedInv (used : List Str) (out : List (PlacedQuestion × Bool)) : Prop :=
  (∀ p ∈ out, p.2 = true → p.1.text ∈ used) ∧
  (out.filter (·.2)).Pairwise (fun a b => a.1.text ≠ b.1.text)

/-- One slot preserves `TaggedInv`. -/
theorem fillSlot_taggedInv (store : Str → List Doc) (filt : Option Str)
    (es : ExamStructure) (acc : List Str × List (PlacedQuestion × Bool))
    (slot : Nat × Str × Str × Str) (h : TaggedInv acc.1 acc.2) :
    TaggedInv (fillSlot store filt es acc slot).1
      (fillSlot store filt es acc slot).2 := by
  obtain ⟨used, out⟩ := acc
  obtain ⟨h1, h2⟩ := h
  dsimp only [fillSlot]
  split
  next d heq =>
    have hnew : d.page_content ∉ used := by
      simpa using scanDocs_not_used filt used _ d heq
    refine ⟨?_, ?_⟩
    · intro p hp hpt
      rcases List.mem_append.mp hp with hl | hr
      · exact List.mem_append_left _ (h1 p hl hpt)
      · simp only [List.mem_singleton] at hr
        subst hr
        exact List.mem_append_right _ (by simp)
    · rw [List.filter_append, List.pairwise_append]
      refine ⟨h2, by simp, ?_⟩
      intro a ha b hb
      rw [List.mem_filter] at ha
      simp only [List.filter_cons] at hb
      simp at hb
      subst hb
      intro hcontr
      have hmem := h1 a ha.1 (by simpa using ha.2)
      rw [hcontr] at hmem
      exact hnew hmem
  next heq =>
    refine ⟨?_, ?_⟩
    · intro p hp hpt
      rcases List.mem_append.mp hp with hl | hr
      · exact h1 p hl hpt
      · simp only [List.mem_singleton] at hr
        subst hr
        exact absurd hpt (by simp)
    · rw [List.filter_append]
      simpa using h2

/-- The fold preserves `TaggedInv`. -/
theorem foldl_fillSlot_taggedInv (store : Str → List Doc)
    (filt : Option Str) (es : ExamStructure) :
    ∀ (slots : List (Nat × Str × Str × Str))
      (acc : List Str × List (PlacedQuestion × Bool)),
      TaggedInv acc.1 acc.2 →
      TaggedInv (slots.foldl (fillSlot store filt es) acc).1
        (slots.foldl (fillSlot store filt es) acc).2 := by
  intro slots
  induction slots with
  | nil => intro acc h; exact h
  | cons a as ih =>
    intro acc h
    rw [List.foldl_cons]
    exact ih _ (fillSlot_taggedInv store filt es acc a h)

/-- Total marks of a question list. -/
def sumMarks (l : List ExamQuestion) : Nat :=
  (l.map (fun q => q.metadata.marks)).sum

/-- Run-wide selector invariant: every selected question's prefix key and
every fresh trace-event key is recorded in the used set, and both the
selected questions and the fresh trace events carry pairwise-distinct
keys. -/
def SelInv (st : SelState) : Prop :=
  (∀ q ∈ st.selected_questions, qKey q.text ∈ st.used_question_hashes) ∧
  st.selected_questions.Pairwise (fun a b => qKey a.text ≠ qKey b.text) ∧
  (∀ e ∈ st.trace, ∀ k, e.freshKey = some k → k ∈ st.used_question_hashes) ∧
  st.trace.Pairwise (fun a b => ∀ k, a.freshKey = some k → ¬ b.freshKey = some k)

/-- A list fold preserves any invariant its step preserves. -/
theorem foldl_preserve {α : Type _} {σ : Type _} (f : σ → α → σ)
    (P : σ → Prop) (hf : ∀ s a, P s → P (f s a)) :
    ∀ (l : List α) (s : σ), P s → P (l.foldl f s) := by
  intro l
  induction l with
  | nil => intro s h; exact h
  | cons a as ih =>
    intro s h
    rw [List.foldl_cons]
    exact ih _ (hf s a h)

/-- One candidate document preserves `SelInv`. -/
theorem processDoc_selInv (module : Str) (target : Nat) (st : SelState)
    (cur : Nat) (d : Doc) (h : SelInv st) :
    SelInv (processDoc module target (st, cur) d).1 := by
  obtain ⟨h1, h2, h3, h4⟩ := h
  dsimp only [processDoc]
  split_ifs with hguard hdup hquota
  · exact ⟨h1, h2, h3, h4⟩
  · refine ⟨h1, h2, ?_, ?_⟩
    · intro e he k hk
      rcases List.mem_append.mp he with hl | hr
      · exact h3 e hl k hk
      · simp only [List.mem_singleton] at hr
        subst hr
        exact absurd hk (by simp [SelEvent.freshKey])
    · rw [List.pairwise_append]
      refine ⟨h4, by simp, ?_⟩
      intro a _ b hb k _
      simp only [List.mem_singleton] at hb
      subst hb
      simp [SelEvent.freshKey]
  · have hfresh : qKey d.page_content ∉ st.used_question_hashes := by
      simpa using hdup
    refine ⟨?_, h2, ?_, ?_⟩
    · intro q hq
      exact List.mem_append_left _ (h1 q hq)
    · intro e he k hk
      rcases List.mem_append.mp he with hl | hr
      · exact List.mem_append_left _ (h3 e hl k hk)
      · simp only [List.mem_singleton] at hr
        subst hr
        simp only [SelEvent.freshKey, Option.some.injEq] at hk
        subst hk
        exact List.mem_append_right _ (by simp)
    · rw [List.pairwise_append]
      refine ⟨h4, by simp, ?_⟩
      intro a ha b hb k hak
      simp only [List.mem_singleton] at hb
      subst hb
      simp only [SelEvent.freshKey, Option.some.injEq]
      intro hkk
      subst hkk
      exact hfresh (h3 a ha _ hak)
  · have hfresh : qKey d.page_content ∉ st.used_question_hashes := by
      simpa using hdup
    refine ⟨?_, ?_, ?_, ?_⟩
    · intro q hq
      rcases List.mem_append.mp hq with hl | hr
      · exact List.mem_append_left _ (h1 q hl)
      · simp only [List.mem_singleton] at hr
        subst hr
        exact List.mem_append_right _ (by simp)
    · rw [List.pairwise_append]
      refine ⟨h2, by simp, ?_⟩
      intro a ha b hb
      simp only [List.mem_singleton] at hb
      subst hb
      intro hkeq
      exact hfresh (hkeq ▸ h1 a ha)
    · intro e he k hk
      rcases List.mem_append.mp he with hl | hr
      · exact List.mem_append_left _ (h3 e hl k hk)
      · simp only [List.mem_singleton] at hr
        subst hr
        simp only [SelEvent.freshKey, Option.some.injEq] at hk
        subst hk
        exact List.mem_append_right _ (by simp)
    · rw [List.pairwise_append]
      refine ⟨h4, by simp, ?_⟩
      intro a ha b hb k hak
      simp only [List.mem_singleton] at hb
      subst hb
      simp only [SelEvent.freshKey, Option.some.injEq]
      intro hkk
      subst hkk
      exact hfresh (h3 a ha _ hak)

/-- One search query preserves `SelInv`. -/
theorem processQuery_selInv (search : Str → Option (List Doc))
    (module : Str) (target : Nat) (p : SelState × Nat) (q : Str)
    (h : SelInv p.1) :
    SelInv (processQuery search module target p q).1 := by
  obtain ⟨st, cur⟩ := p
  dsimp only [processQuery]
  split_ifs with hguard
  · exact h
  · split
    next => exact h
    next docs heq =>
      exact foldl_preserve _ (fun x : SelState × Nat => SelInv x.1)
        (fun s a hh => by
          obtain ⟨s1, c1⟩ := s
          exact processDoc_selInv module target s1 c1 a hh) _ _ h

/-- One blueprint module preserves `SelInv`. -/
theorem processModule_selInv (search : Str → Option (List Doc))
    (p : SelState × List ModuleReport) (item : BlueprintItem)
    (h : SelInv p.1) :
    SelInv (processModule search p item).1 := by
  obtain ⟨st, reps⟩ := p
  dsimp only [processModule]
  exact foldl_preserve _ (fun x : SelState × Nat => SelInv x.1)
    (fun s a hh => processQuery_selInv search _ _ s a hh) _ _ h

/-- `SelInv` holds at the end of every selector run. -/
theorem selectorRun_selInv (search : Str → Option (List Doc))
    (bp : List BlueprintItem) : SelInv (selectorRun search bp).1 :=
  foldl_preserve _ (fun x : SelState × List ModuleReport => SelInv x.1)
    (fun s a hh => processModule_selInv search s a hh) bp _
    ⟨by simp, by simp, by simp, by simp⟩

/-- Per-module invariant: `current_marks` is exactly the mark total of the
questions selected during this module (the suffix past `base`), and it
never exceeds `target + 5`. -/
def QuotaInv (base target : Nat) (p : SelState × Nat) : Prop :=
  base ≤ p.1.selected_questions.length ∧
  p.2 = sumMarks (p.1.selected_questions.drop base) ∧
  p.2 ≤ target + 5

/-- One candidate document preserves `QuotaInv`. -/
theorem processDoc_quotaInv (module : Str) (base target : Nat)
    (st : SelState) (cur : Nat) (d : Doc)
    (h : QuotaInv base target (st, cur)) :
    QuotaInv base target (processDoc module target (st, cur) d) := by
  obtain ⟨hb, hs, hq⟩ := h
  dsimp only at hb hs hq
  dsimp only [processDoc]
  split_ifs with hguard hdup hquota
  · exact ⟨hb, hs, hq⟩
  · exact ⟨hb, hs, hq⟩
  · exact ⟨hb, hs, hq⟩
  · refine ⟨?_, ?_, by omega⟩
    · simp only [List.length_append, List.length_cons, List.length_nil]
      omega
    · rw [List.drop_append_of_le_length hb]
      simp only [sumMarks, List.map_append, List.sum_append]
      rw [← sumMarks, ← hs]
      simp

/-- One search query preserves `QuotaInv`. -/
theorem processQuery_quotaInv (search : Str → Option (List Doc))
    (module : Str) (base target : Nat) (p : SelState × Nat) (q : Str)
    (h : QuotaInv base target p) :
    QuotaInv base target (processQuery search module target p q) := by
  obtain ⟨st, cur⟩ := p
  dsimp only [processQuery]
  split_ifs with hguard
  · exact h
  · split
    next => exact h
    next docs heq =>
      exact foldl_preserve _ (QuotaInv base target)
        (fun s a hh => by
          obtain ⟨s1, c1⟩ := s
          exact processDoc_quotaInv module base target s1 c1 a hh) _ _ h

/-- The per-report selection-quota property. -/
def ReportOk (r : ModuleReport) : Prop :=
  r.total = sumMarks r.questions ∧ r.total ≤ r.target + 5

/-- Each blueprint module appends a quota-respecting report. -/
theorem processModule_reports (search : Str → Option (List Doc))
    (p : SelState × List ModuleReport) (item : BlueprintItem)
    (h : ∀ r ∈ p.2, ReportOk r) :
    ∀ r ∈ (processModule search p item).2, ReportOk r := by
  obtain ⟨st, reps⟩ := p
  intro r hr
  dsimp only [processModule] at hr
  rcases List.mem_append.mp hr with hl | hnew
  · exact h r hl
  · simp only [List.mem_singleton] at hnew
    subst hnew
    have hinv := foldl_preserve
      (processQuery search (item.module.getD (str "General"))
        (item.marks.getD 20))
      (QuotaInv st.selected_questions.length (item.marks.getD 20))
      (fun s a hh => processQuery_quotaInv search _ _ _ s a hh)
      (item.module.getD (str "General") ::
        item.topics.getD [item.module.getD (str "General")])
      (st, 0)
      ⟨le_refl _, by rw [List.drop_length]; simp [sumMarks], by omega⟩
    exact ⟨hinv.2.1, hinv.2.2⟩

/-- C4: in the examiner selector, every module report's mark total is the
sum of the marks of the questions selected for that module and never
exceeds `target + 5` (tolerance 5); and once `current_marks` reaches the
target, `processDoc` adds nothing at all. -/
theorem selector_quota_bound :
    (∀ (search : Str → Option (List Doc)) (bp : List BlueprintItem),
      ∀ r ∈ (selectorRun search bp).2,
        r.total = sumMarks r.questions ∧ r.total ≤ r.target + 5) ∧
    (∀ (module : Str) (target : Nat) (st : SelState) (cur : Nat) (d : Doc),
      cur ≥ target → processDoc module target (st, cur) d = (st, cur)) := by
  constructor
  · intro search bp
    exact foldl_preserve (processModule search)
      (fun p : SelState × List ModuleReport => ∀ r ∈ p.2, ReportOk r)
      (fun s a hh => processModule_reports search s a hh) bp _ (by simp)
  · intro module target st cur d hge
    dsimp only [processDoc]
    rw [if_pos hge]

/-- C4 (witness): the quota bound on the concrete one-module run, and the
no-further-selection property at `current_marks = 12 ≥ target = 10`. -/
theorem selector_quota_bound_witness :
    (((selectorRun searchC10 blueprintC10).2.get? 0).elim True
        (fun r => r.total = sumMarks r.questions ∧ r.total ≤ r.target + 5)) ∧
    processDoc (str "M1") 10 ({}, 12) docSmall = ({}, 12) := by
  constructor
  · cases hg : (selectorRun searchC10 blueprintC10).2.get? 0 with
    | none => exact trivial
    | some r =>
      exact selector_quota_bound.1 searchC10 blueprintC10 r (List.get?_mem hg)
  · exact selector_quota_bound.2 (str "M1") 10 {} 12 docSmall (by omega)

/-- C6 (amended): within one run, no two questions selected by the
examiner selector share the 100-character-prefix key, and no two
document-sourced questions placed by the unit-wise builder share the
full-content key.  (The selector keys by a prefix; the unit-wise builder
keys by the WHOLE content — see the counterexample.) -/
theorem dedup_keys_distinct :
    (∀ (search : Str → Option (List Doc)) (bp : List BlueprintItem),
      (selector_node search bp).Pairwise
        (fun a b => qKey a.text ≠ qKey b.text)) ∧
    (∀ (llmResp : Option Str) (store : Str → List Doc) (filt : Option Str)
        (es : ExamStructure),
      ((buildExamTagged llmResp store filt es).filter (·.2)).Pairwise
        (fun a b => a.1.text ≠ b.1.text)) := by
  constructor
  · intro search bp
    exact (selectorRun_selInv search bp).2.1
  · intro llmResp store filt es
    exact (foldl_fillSlot_taggedInv store filt es _ ([], [])
      ⟨by simp, by simp⟩).2

/-- C6 (witness): both halves at concrete runs. -/
theorem dedup_keys_distinct_witness :
    (selector_node searchC10 blueprintC10).Pairwise
      (fun a b => qKey a.text ≠ qKey b.text) ∧
    ((buildExamTagged none storeC6 none esC6).filter (·.2)).Pairwise
      (fun a b => a.1.text ≠ b.1.text) :=
  ⟨dedup_keys_distinct.1 searchC10 blueprintC10,
   dedup_keys_distinct.2 none storeC6 none esC6⟩

/-- C6 (counterexample): in the unit-wise builder the dedup key is a hash
of the FULL content, not of a prefix: a run over two candidates that agree
on their first 100 characters but differ afterwards places BOTH, so two
placed items share the claimed content-prefix key. -/
theorem build_exam_prefix_key_collision :
    (build_exam_from_syllabus none storeC6 none esC6).length = 2 ∧
    qKey (((build_exam_from_syllabus none storeC6 none esC6).get? 0).getD
        dummyPlaced).text =
      qKey (((build_exam_from_syllabus none storeC6 none esC6).get? 1).getD
        dummyPlaced).text ∧
    ¬ (((build_exam_from_syllabus none storeC6 none esC6).get? 0).getD
        dummyPlaced).text =
      (((build_exam_from_syllabus none storeC6 none esC6).get? 1).getD
        dummyPlaced).text := by
  exact ⟨by decide, by decide, by decide⟩

/-- C10: a candidate whose key was recorded and that was then rejected by
the mark quota can never be selected later in the same run — the key
went into the used set before the quota check. -/
theorem selector_rejected_never_selected
    (search : Str → Option (List Doc)) (bp : List BlueprintItem)
    (i j : Nat) (ki kj : Str) (hij : i < j)
    (hi : (selectorRun search bp).1.trace.get? i = some (.rejected ki))
    (hj : (selectorRun search bp).1.trace.get? j = some (.selected kj)) :
    ¬ kj = ki := by
  have hpw := (selectorRun_selInv search bp).2.2.2
  obtain ⟨hilen, higet⟩ := List.get?_eq_some.mp hi
  obtain ⟨hjlen, hjget⟩ := List.get?_eq_some.mp hj
  have hrel := List.pairwise_iff_get.mp hpw ⟨i, hilen⟩ ⟨j, hjlen⟩
    (by exact hij)
  rw [higet, hjget] at hrel
  intro hkk
  exact hrel ki (by simp [SelEvent.freshKey])
    (by simp [SelEvent.freshKey, hkk])

/-- C10 (witness): the oversized first candidate is rejected at trace
position 0, the fitting one selected at position 1, and their keys
differ. -/
theorem selector_rejected_never_selected_witness :
    (selectorRun searchC10 blueprintC10).1.trace.get? 0 =
      some (.rejected (qKey docBig.page_content)) ∧
    (selectorRun searchC10 blueprintC10).1.trace.get? 1 =
      some (.selected (qKey docSmall.page_content)) ∧
    ¬ qKey docSmall.page_content = qKey docBig.page_content := by
  refine ⟨by decide, by decide, ?_⟩
  exact selector_rejected_never_selected searchC10 blueprintC10 0 1
    (qKey docBig.page_content) (qKey docSmall.page_content)
    (by omega) (by decide) (by decide)

/-- Even with both LLM calls succeeding, a fenced JSON object binding
`flashcards` to a float aborts the run: the value parses (as a Python
float) and the uncaught `len(flashcards)` `TypeError` escapes the
generator stage — which is why `genFenceOk` excludes float payloads. -/
theorem tutor_run_fails_on_float_flashcards :
    runTutor tutorInp tutorFloatCollab = .error () ∧
    genFenceOk (str "```json\n\x7b\"flashcards\": 1.5\x7d```") = false := by
  exact ⟨by rfl, by rfl⟩

/-- Removing control characters from control-free text changes nothing. -/
theorem removeCtrl_id (s : Str) (h : s.all (fun ch => !isCtrl ch) = true) :
    removeCtrl s = s := by
  unfold removeCtrl
  rw [List.filter_eq_self]
  simpa using List.all_eq_true.mp h

/-- Blanking control characters in control-free text changes nothing. -/
theorem ctrlToSpace_id (s : Str) (h : s.all (fun ch => !isCtrl ch) = true) :
    ctrlToSpace s = s := by
  unfold ctrlToSpace
  have hmem := List.all_eq_true.mp h
  calc s.map (fun ch => if isCtrl ch then ' ' else ch)
      = s.map id := by
        apply List.map_congr_left
        intro a ha
        have := hmem a ha
        simp only [Bool.not_eq_true'] at this
        simp [this]
    _ = s := List.map_id s

/-- `replace` on text without the pattern changes nothing. -/
theorem replaceAllSubAux_id (pat rep : Str) :
    ∀ (fuel : Nat) (s : Str), isSubstr pat s = false →
      replaceAllSubAux pat rep fuel s = s := by
  intro fuel
  induction fuel with
  | zero => intro s _; rfl
  | succ n ih =>
    intro s h
    unfold replaceAllSubAux
    cases s with
    | nil =>
      rw [if_neg]
      rintro ⟨hne, hpre⟩
      cases pat with
      | nil => exact hne rfl
      | cons a l => simp [List.isPrefixOf] at hpre
    | cons d rest =>
      rw [isSubstr_cons, Bool.or_eq_false_iff] at h
      rw [if_neg (by simp [h.1])]
      show d :: replaceAllSubAux pat rep n rest = d :: rest
      rw [ih rest h.2]

/-- `replace` on text without the pattern changes nothing. -/
theorem replaceAllSub_id (pat rep s : Str) (h : isSubstr pat s = false) :
    replaceAllSub pat rep s = s := by
  unfold replaceAllSub
  split_ifs with hp
  · rfl
  · exact replaceAllSubAux_id pat rep _ s h

/-- A single-character pattern absent from the text is never found. -/
theorem splitFirstAt_single_none (c : Char) :
    ∀ s : Str, c ∉ s → splitFirstAt [c] s = none := by
  intro s
  induction s with
  | nil => intro _; rfl
  | cons d rest ih =>
    intro h
    have hne : ¬ c = d := fun hc => h (hc ▸ List.mem_cons_self d rest)
    unfold splitFirstAt
    rw [if_neg (by simp [List.isPrefixOf]; intro hcd; exact hne hcd)]
    rw [ih (fun hm => h (List.mem_cons_of_mem d hm))]
    rfl

/-- The bracket span is absent when the opening bracket is absent. -/
theorem greedySpan_none_of_not_mem (o c : Char) (s : Str) (h : o ∉ s) :
    greedySpan o c s = none := by
  unfold greedySpan
  rw [splitFirstAt_single_none o s h]

/-- A bracket span starts with the opening bracket. -/
theorem greedySpan_shape (o c : Char) (s sp : Str)
    (h : greedySpan o c s = some sp) : ∃ t, sp = o :: t := by
  unfold greedySpan at h
  cases h1 : splitFirstAt [o] s with
  | none => rw [h1] at h; exact absurd h (by simp)
  | some p =>
    rw [h1] at h
    dsimp only at h
    cases h2 : splitFirstAt [c] p.2.reverse with
    | none => rw [h2] at h; exact absurd h (by simp)
    | some q =>
      rw [h2] at h
      simp only [Option.some.injEq] at h
      exact ⟨_, h.symm⟩

/-- Membership survives `pyStrip` (it only deletes edge characters). -/
theorem mem_of_mem_pyStrip {a : Char} {s : Str} (h : a ∈ pyStrip s) :
    a ∈ s := by
  unfold pyStrip at h
  rw [List.mem_reverse] at h
  have h1 := (List.dropWhile_sublist (l := (s.dropWhile pyIsSpace).reverse)
    (p := pyIsSpace)).subset h
  rw [List.mem_reverse] at h1
  exact (List.dropWhile_sublist (l := s) (p := pyIsSpace)).subset h1

/-- Membership survives `removeCtrl`. -/
theorem mem_of_mem_removeCtrl {a : Char} {s : Str}
    (h : a ∈ removeCtrl s) : a ∈ s :=
  (List.mem_filter.mp h).1

/-- A number literal only ever parses to a number (`num` or `fnum`),
never to a container. -/
theorem parseNumber_shape (s : Str) (v : Json) (r : Str)
    (h : parseNumber s = some (v, r)) :
    Json.isObj v = false ∧ Json.isArr v = false := by
  unfold parseNumber at h
  dsimp only at h
  split_ifs at h <;> (repeat' split at h) <;> (cases h <;> try exact ⟨rfl, rfl⟩)

/-- Object members only ever parse to `Json.obj`. -/
theorem parseMembers_isObj :
    ∀ (fuel : Nat) (acc : List (Str × Json)) (s : Str) (v : Json) (r : Str),
      parseMembers fuel acc s = some (v, r) → Json.isObj v = true := by
  intro fuel
  induction fuel with
  | zero => intro acc s v r h; exact absurd h (by simp [parseMembers])
  | succ n ih =>
    intro acc s v r h
    unfold parseMembers at h
    repeat' split at h
    all_goals
      first
      | exact ih _ _ _ _ h
      | (cases h; try rfl)

/-- An object body only ever parses to `Json.obj`. -/
theorem parseObjBody_isObj (fuel : Nat) (s : Str) (v : Json) (r : Str)
    (h : parseObjBody fuel s = some (v, r)) : Json.isObj v = true := by
  cases fuel with
  | zero => exact absurd h (by simp [parseObjBody])
  | succ n =>
    unfold parseObjBody at h
    split at h
    · simp only [Option.some.injEq, Prod.mk.injEq] at h
      obtain ⟨hv, -⟩ := h
      subst hv
      rfl
    · exact parseMembers_isObj n [] s v r h

/-- Array elements only ever parse to `Json.arr`. -/
theorem parseElems_isArr :
    ∀ (fuel : Nat) (acc : List Json) (s : Str) (v : Json) (r : Str),
      parseElems fuel acc s = some (v, r) → Json.isArr v = true := by
  intro fuel
  induction fuel with
  | zero => intro acc s v r h; exact absurd h (by simp [parseElems])
  | succ n ih =>
    intro acc s v r h
    unfold parseElems at h
    repeat' split at h
    all_goals
      first
      | exact ih _ _ _ _ h
      | (cases h; try rfl)

/-- An array body only ever parses to `Json.arr`. -/
theorem parseArrBody_isArr (fuel : Nat) (s : Str) (v : Json) (r : Str)
    (h : parseArrBody fuel s = some (v, r)) : Json.isArr v = true := by
  cases fuel with
  | zero => exact absurd h (by simp [parseArrBody])
  | succ n =>
    unfold parseArrBody at h
    split at h
    · simp only [Option.some.injEq, Prod.mk.injEq] at h
      obtain ⟨hv, -⟩ := h
      subst hv
      rfl
    · exact parseElems_isArr n [] s v r h

/-- The head of the whitespace-skipped text is in the text. -/
theorem head_skipWs_mem (s : Str) (c : Char) (cr : Str)
    (h : skipWs s = c :: cr) : c ∈ s := by
  have hm : c ∈ skipWs s := h ▸ List.mem_cons_self c cr
  exact (List.dropWhile_sublist (l := s) (p := jsonWs)).subset hm

/-- Dispatch: a top-level object needs a brace, a top-level array needs a
bracket. -/
theorem parseValue_head (fuel : Nat) (s : Str) (v : Json) (r : Str)
    (h : parseValue fuel s = some (v, r)) :
    (Json.isObj v = true → '{' ∈ s) ∧ (Json.isArr v = true → '[' ∈ s) := by
  cases fuel with
  | zero => exact absurd h (by simp [parseValue])
  | succ n =>
    unfold parseValue at h
    cases hws : skipWs s with
    | nil => rw [hws] at h; exact absurd h (by simp)
    | cons c cr =>
      rw [hws] at h
      dsimp only at h
      have hcs : c ∈ s := head_skipWs_mem s c cr hws
      split_ifs at h with h1 h2 h3 h4 h5 h6 h7 h8 h9
      · have hobj := parseObjBody_isObj n cr v r h
        subst h1
        refine ⟨fun _ => hcs, fun harr => ?_⟩
        cases v <;> simp_all [Json.isObj, Json.isArr]
      · have harr := parseArrBody_isArr n cr v r h
        subst h2
        refine ⟨fun hobj => ?_, fun _ => hcs⟩
        cases v <;> simp_all [Json.isObj, Json.isArr]
      · cases hsr : parseStringRest cr with
        | none => rw [hsr] at h; exact absurd h (by simp)
        | some p =>
          rw [hsr] at h
          simp only [Option.map, Option.some.injEq, Prod.mk.injEq] at h
          obtain ⟨hv, -⟩ := h
          subst hv
          exact ⟨by simp [Json.isObj], by simp [Json.isArr]⟩
      · simp only [Option.some.injEq, Prod.mk.injEq] at h
        obtain ⟨hv, -⟩ := h
        subst hv
        exact ⟨by simp [Json.isObj], by simp [Json.isArr]⟩
      · simp only [Option.some.injEq, Prod.mk.injEq] at h
        obtain ⟨hv, -⟩ := h
        subst hv
        exact ⟨by simp [Json.isObj], by simp [Json.isArr]⟩
      · simp only [Option.some.injEq, Prod.mk.injEq] at h
        obtain ⟨hv, -⟩ := h
        subst hv
        exact ⟨by simp [Json.isObj], by simp [Json.isArr]⟩
      · simp only [Option.some.injEq, Prod.mk.injEq] at h
        obtain ⟨hv, -⟩ := h
        subst hv
        exact ⟨by simp [Json.isObj], by simp [Json.isArr]⟩
      · simp only [Option.some.injEq, Prod.mk.injEq] at h
        obtain ⟨hv, -⟩ := h
        subst hv
        exact ⟨by simp [Json.isObj], by simp [Json.isArr]⟩
      · simp only [Option.some.injEq, Prod.mk.injEq] at h
        obtain ⟨hv, -⟩ := h
        subst hv
        exact ⟨by simp [Json.isObj], by simp [Json.isArr]⟩
      · obtain ⟨ho, ha⟩ := parseNumber_shape _ v r h
        exact ⟨fun hobj => by simp [ho] at hobj,
               fun harr => by simp [ha] at harr⟩

/-- Dispatch at the `json.loads` level. -/
theorem parseJson_head (s : Str) (v : Json) (h : parseJson s = some v) :
    (Json.isObj v = true → '{' ∈ s) ∧ (Json.isArr v = true → '[' ∈ s) := by
  unfold parseJson at h
  cases hpv : parseValue (s.length + 1) s with
  | none => rw [hpv] at h; exact absurd h (by simp)
  | some p =>
    rw [hpv] at h
    dsimp only at h
    split_ifs at h with hrest
    simp only [Option.some.injEq] at h
    subst h
    exact parseValue_head _ s p.1 p.2 (by rw [hpv])

/-- Characters of a replacement result come from the replacement text or
the original. -/
theorem mem_replaceAllSubAux {a : Char} (pat rep : Str) :
    ∀ (fuel : Nat) (s : Str),
      a ∈ replaceAllSubAux pat rep fuel s → a ∈ rep ∨ a ∈ s := by
  intro fuel
  induction fuel with
  | zero => intro s h; exact Or.inr h
  | succ n ih =>
    intro s h
    unfold replaceAllSubAux at h
    split_ifs at h with h1
    · rcases List.mem_append.mp h with hl | hr
      · exact Or.inl hl
      · rcases ih _ hr with hl2 | hr2
        · exact Or.inl hl2
        · exact Or.inr (List.drop_subset _ _ hr2)
    · cases s with
      | nil => exact absurd h (by simp)
      | cons c rest =>
        rcases List.mem_cons.mp h with hc | hrec
        · exact Or.inr (hc ▸ List.mem_cons_self c rest)
        · rcases ih _ hrec with hl2 | hr2
          · exact Or.inl hl2
          · exact Or.inr (List.mem_cons_of_mem c hr2)

/-- Characters of a replacement result come from the replacement text or
the original. -/
theorem mem_replaceAllSub {a : Char} (pat rep s : Str)
    (h : a ∈ replaceAllSub pat rep s) : a ∈ rep ∨ a ∈ s := by
  unfold replaceAllSub at h
  split_ifs at h
  · exact Or.inr h
  · exact mem_replaceAllSubAux pat rep _ s h

/-- A non-space character survives `ctrlToSpace` backwards. -/
theorem mem_ctrlToSpace {a : Char} (s : Str) (hne : ¬ a = ' ')
    (h : a ∈ ctrlToSpace s) : a ∈ s := by
  unfold ctrlToSpace at h
  obtain ⟨b, hb, hfb⟩ := List.mem_map.mp h
  by_cases hc : isCtrl b
  · rw [if_pos hc] at hfb
    exact absurd hfb.symm hne
  · rw [if_neg hc] at hfb
    exact hfb ▸ hb

/-- C7 (amended): the structured-extraction step, per call site.
(1)/(2) For the blueprint extraction, a tagged fence interior — or, with
no fence, the greedy bracket span — that is already trimmed and free of
control characters parses exactly as the interior/span parses directly.
(3) With neither a fence nor an opening bracket, the blueprint node falls
back to the hand-authored default.
(4) For the node-content extraction the fence clause holds ONLY when the
interior contains no two-character `\n` escape (otherwise the
"keep actual newlines" replacement corrupts it — see the counterexample).
(5) With neither a fence nor an opening brace, node-content extraction
never silently succeeds with an object. -/
theorem extraction_clauses :
    (∀ (resp i : Str), fenceInterior (str "json") resp = some i →
      pyStrip i = i → i.all (fun ch => !isCtrl ch) = true →
      blueprintParse resp = parseJson i) ∧
    (∀ (resp sp : Str), fenceInterior (str "json") resp = none →
      greedySpan '[' ']' resp = some sp →
      pyStrip sp = sp → sp.all (fun ch => !isCtrl ch) = true →
      blueprintParse resp = parseJson sp) ∧
    (∀ resp : Str, fenceInterior (str "json") resp = none →
      '[' ∉ resp → blueprint_node (some resp) = fallbackBlueprint) ∧
    (∀ (resp i : Str), fenceInterior (str "json") resp = some i →
      pyStrip i = i → i.all (fun ch => !isCtrl ch) = true →
      isSubstr ['\\', 'n'] i = false →
      nodeContentParse resp = parseJson i) ∧
    (∀ resp : Str, fenceInterior (str "json") resp = none →
      '{' ∉ resp →
      ∀ kvs, ¬ nodeContentParse resp = some (.obj kvs)) := by
  refine ⟨?_, ?_, ?_, ?_, ?_⟩
  · intro resp i hf htrim hcc
    unfold blueprintParse
    rw [hf]
    dsimp only
    rw [htrim, removeCtrl_id i hcc]
  · intro resp sp hf hsp htrim hcc
    unfold blueprintParse
    rw [hf]
    dsimp only
    rw [hsp]
    dsimp only
    rw [htrim, removeCtrl_id sp hcc]
  · intro resp hf hbr
    have hspan : greedySpan '[' ']' resp = none :=
      greedySpan_none_of_not_mem _ _ _ hbr
    unfold blueprint_node blueprintParse
    dsimp only
    rw [hf]
    dsimp only
    rw [hspan]
    dsimp only
    cases hp : parseJson (removeCtrl (pyStrip resp)) with
    | none => rfl
    | some v =>
      cases v with
      | arr xs =>
        have hin := (parseJson_head _ _ hp).2 rfl
        have hin2 := mem_of_mem_pyStrip (mem_of_mem_removeCtrl hin)
        exact absurd hin2 hbr
      | null => rfl
      | bool b => rfl
      | num n => rfl
      | fnum lit => rfl
      | jstr t => rfl
      | obj kvs => rfl
  · intro resp i hf htrim hcc hesc
    unfold nodeContentParse
    rw [hf]
    dsimp only
    rw [ctrlToSpace_id i hcc, replaceAllSub_id _ _ _ hesc, htrim]
    by_cases hi : i = []
    · subst hi
      rw [if_pos rfl]
      rfl
    · rw [if_neg hi]
  · intro resp hf hbr kvs
    have hspan : greedySpan '{' '}' resp = none :=
      greedySpan_none_of_not_mem _ _ _ hbr
    unfold nodeContentParse
    rw [hf]
    dsimp only
    rw [hspan]
    dsimp only
    split_ifs with hempty
    · simp
    · intro hp
      have hin := (parseJson_head _ _ hp).1 rfl
      have hin2 := mem_of_mem_pyStrip hin
      rcases mem_replaceAllSub _ _ _ hin2 with hl | hr
      · simp at hl
      · exact absurd (mem_ctrlToSpace resp (by decide) hr) hbr

/-- C7 (counterexample): a fenced JSON object whose strings carry the
`\n` escape parses directly, but the node-content extraction turns the
escape into a raw newline and strict parsing then fails (the caller falls
back) — the claimed equality with direct parsing is false there. -/
theorem node_extraction_breaks_escapes :
    fenceInterior (str "json") respC7 = some interiorC7 ∧
    (parseJson interiorC7).isSome = true ∧
    nodeContentParse respC7 = none := by
  exact ⟨by rfl, by rfl, by rfl⟩

/-- C7 (witness): the fence clause at a concrete clean fence, and the
failure clause at a concrete fence-free, bracket-free response. -/
theorem extraction_clauses_witness :
    blueprintParse (str "x ```json\n[1, 2]``` y") = parseJson (str "[1, 2]") ∧
    blueprint_node (some (str "syllabus text with no JSON at all")) =
      fallbackBlueprint ∧
    nodeContentParse (str "pre ```json\n\x7b\"a\": 1\x7d``` post") =
      parseJson (str "\x7b\"a\": 1\x7d") := by
  refine ⟨?_, ?_, ?_⟩
  · exact extraction_clauses.1 (str "x ```json\n[1, 2]``` y") (str "[1, 2]")
      (by rfl) (by rfl) (by decide)
  · exact extraction_clauses.2.2.1 (str "syllabus text with no JSON at all")
      (by rfl) (by decide)
  · exact extraction_clauses.2.2.2.1 (str "pre ```json\n\x7b\"a\": 1\x7d``` post")
      (str "\x7b\"a\": 1\x7d") (by rfl) (by rfl) (by decide) (by rfl)

end GenAI
